import Mathlib

/-!
# ingress-saml-authorizer: the policy matcher and the three handlers

A shallow embedding of `authorizer.go`.

* Go maps and slices are reference values that may be nil.  `GoSlice` and `GoMap`
  keep the nil value apart from the allocated empty one; `len`, `range` and
  indexing, the only operations the program applies to them, are defined on both.
* A Go map is represented by the list of its entries in the order in which one
  `range` statement visits them.  Go leaves that order unspecified; every theorem
  below quantifies over the list and therefore holds for each order.  The keys of
  a Go map are pairwise distinct (`GoMap.keysNodup`); the theorems that depend on
  this say so.
* The handlers mutate the response writer, the request, the logger and the SAML
  middleware.  They are state transformers on `State`, which holds these four.
-/

set_option autoImplicit false

namespace Authorizer

/-! ## Go values -/

/-- A Go slice value: the nil slice or an allocated slice with its elements. -/
inductive GoSlice (α : Type) where
  | nil : GoSlice α
  | mk (elems : List α) : GoSlice α
  deriving DecidableEq, Repr

/-- The elements a `for _, x := range s` statement visits, in order. -/
def GoSlice.range {α : Type} : GoSlice α → List α
  | .nil => []
  | .mk elems => elems

/-- Go `len(s)` for a slice; the nil slice has length zero. -/
def GoSlice.len {α : Type} : GoSlice α → Nat
  | .nil => 0
  | .mk elems => elems.length

/-- A Go map with string keys: the nil map or an allocated map with its entries. -/
inductive GoMap (β : Type) where
  | nil : GoMap β
  | mk (entries : List (String × β)) : GoMap β
  deriving DecidableEq, Repr

/-- The entries a `for k, v := range m` statement visits, in the order of one run. -/
def GoMap.range {β : Type} : GoMap β → List (String × β)
  | .nil => []
  | .mk entries => entries

/-- Go `len(m)` for a map; the nil map has length zero. -/
def GoMap.len {β : Type} : GoMap β → Nat
  | .nil => 0
  | .mk entries => entries.length

/-- The two-result index expression `v, ok := m[key]`: `some v` when `ok`. -/
def GoMap.index {β : Type} : GoMap β → String → Option β
  | .nil, _ => none
  | .mk entries, key => entries.lookup key

/-- The keys of a map, in the order of `range`. -/
def GoMap.keys {β : Type} (m : GoMap β) : List String :=
  m.range.map Prod.fst

/-- The keys of a Go map are pairwise distinct. -/
def GoMap.keysNodup {β : Type} (m : GoMap β) : Prop :=
  m.keys.Nodup

instance {β : Type} (m : GoMap β) : Decidable m.keysNodup :=
  inferInstanceAs (Decidable m.keys.Nodup)

/-! ## Data model -/

/-- Go `samlsp.Attributes`, a `map[string][]string`. -/
abbrev Attributes := GoMap (GoSlice String)

/-- The single-result index expression `attributes[name]`: the zero value, the
nil slice, when the key is absent. -/
def Attributes.get (attributes : Attributes) (name : String) : GoSlice String :=
  match attributes.index name with
  | some values => values
  | none => GoSlice.nil

/-- Go `type requirement map[string]string`. -/
abbrev requirement := GoMap String

/-! ## Policy matcher -/

/-- The inner loop of `aclCheckAND`, `for _, got := range values`: true when it
reaches `continue next`, false when it runs to the end. -/
def aclCheckAND.scan (want : String) : List String → Bool
  | [] => false
  | got :: rest => if got = want then true else aclCheckAND.scan want rest

/-- The outer loop of `aclCheckAND`, `for name, want := range r`. -/
def aclCheckAND.loop (attributes : Attributes) : List (String × String) → Bool
  | [] => true
  | (name, want) :: rest =>
    match attributes.index name with
    | some values =>
      if aclCheckAND.scan want values.range then aclCheckAND.loop attributes rest
      else false
    | none => false

/-- Go `aclCheckAND(attributes, r)`. -/
def aclCheckAND (attributes : Attributes) (r : requirement) : Bool :=
  aclCheckAND.loop attributes r.range

/-- The loop of `aclCheckOR`, `for _, r := range requirements`. -/
def aclCheckOR.loop (attributes : Attributes) : List requirement → Bool
  | [] => false
  | r :: rest =>
    if aclCheckAND attributes r then true else aclCheckOR.loop attributes rest

/-- Go `aclCheckOR(attributes, requirements)`. -/
def aclCheckOR (attributes : Attributes) (requirements : GoSlice requirement) : Bool :=
  aclCheckOR.loop attributes requirements.range

/-! ## Sessions and errors -/

/-- Go `error` values the handlers can meet.  Errors are compared by identity:
the two package-level sentinels are values of their own, and `other` stands for
every error value that is neither of them. -/
inductive GoError where
  | ErrNoSession : GoError
  | errNoAttributes : GoError
  | other (text : String) : GoError
  deriving DecidableEq, Repr

/-- Go `samlsp.ErrNoSession`. -/
def samlsp.ErrNoSession : GoError := GoError.ErrNoSession

/-- Go `var errNoAttributes = errors.New("saml: attributes not present")`. -/
def errNoAttributes : GoError := GoError.errNoAttributes

/-- A value of the interface `samlsp.Session`: the nil interface, a value whose
dynamic type lacks `GetAttributes`, or a value implementing
`samlsp.SessionWithAttributes` together with what its `GetAttributes` returns. -/
inductive Session where
  | nil : Session
  | withoutAttributes : Session
  | withAttributes (GetAttributes : Attributes) : Session
  deriving DecidableEq, Repr

/-! ## Requests and responses (net/http, net/url) -/

/-- The fields of Go `url.URL` that identify a location. -/
structure URL where
  Scheme : String
  Host : String
  Path : String
  RawQuery : String
  Fragment : String
  deriving DecidableEq, Repr

/-- The functions of package net/url that the handlers call.  They belong to the
Go standard library, not to this repository, and are parameters of the model. -/
structure NetURL where
  /-- Go `u.String()`. -/
  urlString : URL → String
  /-- Go `u.Query().Get(key)`. -/
  queryGet : URL → String → String
  /-- Go `base.Parse(ref)`: the resolved location, or the error. -/
  parse : URL → String → Except GoError URL

/-- The parts of Go `http.Request` the handlers read or write. -/
structure Request where
  Method : String
  URL : URL
  UserAgent : String
  RemoteAddr : String
  deriving DecidableEq, Repr

/-- Go `validHeaderFieldByte` of net/textproto: the characters of a token of
RFC 7230, namely the ASCII letters and digits and the signs with the codes 33,
35 to 39, 42, 43, 45, 46, 94 to 96, 124 and 126. -/
def validHeaderFieldByte (c : Char) : Bool :=
  c.isAlphanum ||
    [33, 35, 36, 37, 38, 39, 42, 43, 45, 46, 94, 95, 96, 124, 126].contains c.toNat

/-- The loop of Go `canonicalMIMEHeaderKey`: the first letter and every letter
after a dash in upper case, every other letter in lower case. -/
def canonicalMIMEHeaderKey (upper : Bool) : List Char → List Char
  | [] => []
  | c :: rest =>
    let c2 := if upper && c.isLower then c.toUpper
              else if !upper && c.isUpper then c.toLower else c
    c2 :: canonicalMIMEHeaderKey (c2 == '-') rest

/-- Go `textproto.CanonicalMIMEHeaderKey`, the spelling under which `http.Header`
stores and looks up a name: a name made of token characters only is respelt by
the loop above (`x-name` and `X-name` become `X-Name`), any other name is left
as it is. -/
def CanonicalMIMEHeaderKey (s : String) : String :=
  if s.data.all validHeaderFieldByte then String.mk (canonicalMIMEHeaderKey true s.data)
  else s

/-- A Go `http.ResponseWriter` as a recorder: the lines of the map `w.Header()`
in the order they were added, each under the canonical spelling of its name, the
status of the first `WriteHeader`, and the bytes written.  Which of the lines the
server later sends on the wire is outside this record. -/
structure ResponseWriter where
  header : List (String × String)
  code : Option Nat
  body : String
  deriving DecidableEq, Repr

/-- A response writer as the server hands it to a handler. -/
def ResponseWriter.fresh : ResponseWriter :=
  { header := [], code := none, body := "" }

/-- Go `w.Header().Add(key, value)`: one more line under the canonical spelling
of `key`. -/
def ResponseWriter.headerAdd (w : ResponseWriter) (key value : String) : ResponseWriter :=
  { w with header := w.header ++ [(CanonicalMIMEHeaderKey key, value)] }

/-- Go `w.Header().Set(key, value)`: the lines under the canonical spelling of
`key` are replaced by one line. -/
def ResponseWriter.headerSet (w : ResponseWriter) (key value : String) : ResponseWriter :=
  { w with
    header := w.header.filter (fun line => line.1 != CanonicalMIMEHeaderKey key) ++
      [(CanonicalMIMEHeaderKey key, value)] }

/-- Go `w.Header().Values(key)`: the values of the lines under the canonical
spelling of `key`, in order. -/
def ResponseWriter.headerValues (w : ResponseWriter) (key : String) : List String :=
  (w.header.filter (fun line => line.1 == CanonicalMIMEHeaderKey key)).map Prod.snd

/-- Go `w.WriteHeader(code)`: the first call fixes the status, later calls are
ignored. -/
def ResponseWriter.WriteHeader (w : ResponseWriter) (code : Nat) : ResponseWriter :=
  match w.code with
  | some _ => w
  | none => { w with code := some code }

/-- Go `w.Write(data)`: writes status 200 first when no status was written. -/
def ResponseWriter.Write (w : ResponseWriter) (data : String) : ResponseWriter :=
  let w := w.WriteHeader 200
  { w with body := w.body ++ data }

def http.StatusOK : Nat := 200
def http.StatusAccepted : Nat := 202
def http.StatusBadRequest : Nat := 400
def http.StatusUnauthorized : Nat := 401
def http.StatusForbidden : Nat := 403
def http.StatusInternalServerError : Nat := 500

/-- Go `http.StatusText(code)` on the status codes this program names; Go returns
the empty string for a code it does not know. -/
def http.StatusText (code : Nat) : String :=
  if code = 200 then "OK"
  else if code = 202 then "Accepted"
  else if code = 400 then "Bad Request"
  else if code = 401 then "Unauthorized"
  else if code = 403 then "Forbidden"
  else if code = 500 then "Internal Server Error"
  else ""

/-- Go `http.Error(w, error, code)`: sets the two headers of a plain-text error
reply, writes the status, then the message and a newline. -/
def http.Error (w : ResponseWriter) (error : String) (code : Nat) : ResponseWriter :=
  let w := w.headerSet "Content-Type" "text/plain; charset=utf-8"
  let w := w.headerSet "X-Content-Type-Options" "nosniff"
  let w := w.WriteHeader code
  w.Write (error ++ "\n")

/-! ## The service -/

/-- Go `samlsp.SessionProvider`, of which the handlers call `GetSession` only.
It returns a pair as in Go: the session and the error, nil (`none`) on success. -/
structure SessionProvider where
  GetSession : Request → Session × Option GoError

/-- Go `*samlsp.Middleware`, of which the handlers call `HandleStartAuthFlow`
only: it writes its reply, typically a redirect, to the response writer. -/
structure Middleware where
  HandleStartAuthFlow : ResponseWriter → Request → ResponseWriter

/-- Go `AuthService`.  The logger `Log` is a sink; what it has received is part
of `State`. -/
structure AuthService where
  SP : SessionProvider
  M : Middleware
  RootURL : URL
  RequiredAttributes : GoSlice requirement

/-- One record passed to `s.Log.Info`: the message and the five fields. -/
structure LogEntry where
  msg : String
  requestMethod : String
  requestUrl : String
  userAgent : String
  remoteIp : String
  statusCode : Nat
  deriving DecidableEq, Repr

/-- What a handler can change: the response writer `w`, the request `r` (its
`URL` is assigned in `startAuthFlow`), the records received by `s.Log`, and the
requests with which `s.M.HandleStartAuthFlow` was called. -/
structure State where
  w : ResponseWriter
  r : Request
  log : List LogEntry
  flow : List Request
  deriving DecidableEq, Repr

/-- The state in which the server calls a handler for request `r`. -/
def State.init (r : Request) : State :=
  { w := ResponseWriter.fresh, r := r, log := [], flow := [] }

/-- Go `(*AuthService).httpError`. -/
def AuthService.httpError (net : NetURL) (_s : AuthService) (x : State) (code : Nat) : State :=
  { x with
    log := x.log ++ [{ msg := "error response", requestMethod := x.r.Method,
                       requestUrl := net.urlString x.r.URL, userAgent := x.r.UserAgent,
                       remoteIp := x.r.RemoteAddr, statusCode := code }]
    w := http.Error x.w (http.StatusText code) code }

/-- Go `(*AuthService).httpStatus`. -/
def AuthService.httpStatus (_s : AuthService) (x : State) (code : Nat) : State :=
  { x with w := x.w.WriteHeader code }

/-- Go `(*AuthService).checkACL`. -/
def AuthService.checkACL (s : AuthService) (attributes : Attributes) : Bool :=
  if attributes.len == 0 && decide (s.RequiredAttributes.len > 0) then false
  else if s.RequiredAttributes.len == 0 then true
  else aclCheckOR attributes s.RequiredAttributes

/-- Go `(*AuthService).getAttributes`: the pair of results as in Go, the
attributes (nil on failure) and the error (`none` for nil). -/
def AuthService.getAttributes (s : AuthService) (r : Request) : Attributes × Option GoError :=
  match s.SP.GetSession r with
  | (_, some err) => (GoMap.nil, some err)
  | (session, none) =>
    match session with
    | Session.withAttributes attrs => (attrs, none)
    | _ => (GoMap.nil, some errNoAttributes)

/-- Go `(*AuthService).startAuthFlow`. -/
def AuthService.startAuthFlow (net : NetURL) (s : AuthService) (x : State) : State :=
  let rd := net.queryGet x.r.URL "rd"
  if rd = "" then s.httpError net x http.StatusBadRequest
  else
    match net.parse s.RootURL rd with
    | Except.error _ => s.httpError net x http.StatusInternalServerError
    | Except.ok cleanURL =>
      let r := { x.r with URL := cleanURL }
      { x with r := r, w := s.M.HandleStartAuthFlow x.w r, flow := x.flow ++ [r] }

/-- The inner loop of `Auth`, `for _, v := range attributes[name]`. -/
def AuthService.Auth.addValues (name : String) : List String → ResponseWriter → ResponseWriter
  | [], w => w
  | v :: rest, w => AuthService.Auth.addValues name rest (w.headerAdd ("X-" ++ name) v)

/-- The outer loop of `Auth`, `for name := range attributes`. -/
def AuthService.Auth.addHeaders (attributes : Attributes) :
    List (String × GoSlice String) → ResponseWriter → ResponseWriter
  | [], w => w
  | (name, _) :: rest, w =>
    AuthService.Auth.addHeaders attributes rest
      (AuthService.Auth.addValues name (attributes.get name).range w)

/-- Go `(*AuthService).Auth`, the check-access handler. -/
def AuthService.Auth (net : NetURL) (s : AuthService) (x : State) : State :=
  match s.getAttributes x.r with
  | (_, some _) => s.httpError net x http.StatusUnauthorized
  | (attributes, none) =>
    if !s.checkACL attributes then s.httpError net x http.StatusUnauthorized
    else
      let x := { x with w := AuthService.Auth.addHeaders attributes attributes.range x.w }
      s.httpStatus x http.StatusAccepted

/-- Go `(*AuthService).Signin`, the sign-in handler. -/
def AuthService.Signin (net : NetURL) (s : AuthService) (x : State) : State :=
  match s.getAttributes x.r with
  | (_, some err) =>
    if err = samlsp.ErrNoSession then s.startAuthFlow net x
    else s.httpError net x http.StatusInternalServerError
  | (attributes, none) =>
    if !s.checkACL attributes then s.httpError net x http.StatusForbidden
    else s.httpError net x http.StatusInternalServerError

/-- The inner loop of `Whoami`, one `fmt.Fprintf(w, "%s: %s\n", name, v)` per value. -/
def AuthService.Whoami.writeValues (name : String) : List String → ResponseWriter → ResponseWriter
  | [], w => w
  | v :: rest, w =>
    AuthService.Whoami.writeValues name rest (w.Write (name ++ ": " ++ v ++ "\n"))

/-- The outer loop of `Whoami`, `for name := range attributes`. -/
def AuthService.Whoami.writeLines (attributes : Attributes) :
    List (String × GoSlice String) → ResponseWriter → ResponseWriter
  | [], w => w
  | (name, _) :: rest, w =>
    AuthService.Whoami.writeLines attributes rest
      (AuthService.Whoami.writeValues name (attributes.get name).range w)

/-- Go `(*AuthService).Whoami`, the identity-introspection handler. -/
def AuthService.Whoami (net : NetURL) (s : AuthService) (x : State) : State :=
  match s.getAttributes x.r with
  | (_, some _) => s.httpError net x http.StatusUnauthorized
  | (attributes, none) =>
    let x := s.httpStatus x http.StatusOK
    { x with w := AuthService.Whoami.writeLines attributes attributes.range x.w }

/-- The header lines the two loops of `Auth` add, in order, when the outer loop
visits `entries`: one line per value of `attributes[name]`, under the canonical
spelling of `"X-" ++ name`. -/
def Auth.lines (attributes : Attributes) (entries : List (String × GoSlice String)) :
    List (String × String) :=
  entries.flatMap (fun e =>
    (attributes.get e.1).range.map (fun v => (CanonicalMIMEHeaderKey ("X-" ++ e.1), v)))

/-! ## Fixtures of `authorizer_test.go` -/

/-- Go `validUser`: a session whose attributes are those of the test file. -/
def validUser : SessionProvider :=
  { GetSession := fun _ =>
      (Session.withAttributes
        (GoMap.mk [("name", GoSlice.mk ["Alice"]), ("email", GoSlice.mk ["alice@example.com"]),
                   ("group", GoSlice.mk ["users"])]), none) }

/-- Go `unknownUser`: no session. -/
def unknownUser : SessionProvider :=
  { GetSession := fun _ => (Session.nil, some samlsp.ErrNoSession) }

/-- Go `invalidUser`: the lookup fails with `errors.New("invalid")`. -/
def invalidUser : SessionProvider :=
  { GetSession := fun _ => (Session.nil, some (GoError.other "invalid")) }

/-- Go `noattrUser`: a session without `GetAttributes`. -/
def noattrUser : SessionProvider :=
  { GetSession := fun _ => (Session.withoutAttributes, none) }

/-- A provider that returns the session with attributes `A` for every request. -/
def userWith (A : Attributes) : SessionProvider :=
  { GetSession := fun _ => (Session.withAttributes A, none) }

/-- A stand-in for the middleware of `fakeAuthService`: it answers with a
redirect to the location of the test's identity provider. -/
def fakeMiddleware : Middleware :=
  { HandleStartAuthFlow := fun w _ =>
      (w.headerAdd "Location" "/example?SAMLRequest=").WriteHeader 302 }

/-- Go `fakeAuthService(sp, r)`, with root `http://example.com`. -/
def fakeAuthService (sp : SessionProvider) (r : GoSlice requirement) : AuthService :=
  { SP := sp, M := fakeMiddleware,
    RootURL := { Scheme := "http", Host := "example.com", Path := "", RawQuery := "",
                 Fragment := "" },
    RequiredAttributes := r }

/-- A stand-in for net/url on the requests of the test file: the query of a URL
is the bare value of `rd`, `::` does not parse, and any other reference resolves
to that path under the base. -/
def fakeNetURL : NetURL :=
  { urlString := fun u => u.Path ++ (if u.RawQuery = "" then "" else "?rd=" ++ u.RawQuery),
    queryGet := fun u key => if key = "rd" then u.RawQuery else "",
    parse := fun base ref =>
      if ref = "::" then Except.error (GoError.other "missing protocol scheme")
      else Except.ok { base with Path := ref } }

/-- The request `GET path?rd=rd` of the test file (no `rd` when it is empty). -/
def fakeRequest (path rd : String) : Request :=
  { Method := "GET",
    URL := { Scheme := "", Host := "", Path := path, RawQuery := rd, Fragment := "" },
    UserAgent := "", RemoteAddr := "192.0.2.1:1234" }

/-- The record `httpError` passes to `s.Log.Info` for the request `r` and the
status `code`: the message and the fields `requestMethod`, `requestUrl`,
`userAgent`, `remoteIp` and `statusCode`. -/
def auditRecord (net : NetURL) (r : Request) (code : Nat) : LogEntry :=
  { msg := "error response", requestMethod := r.Method, requestUrl := net.urlString r.URL,
    userAgent := r.UserAgent, remoteIp := r.RemoteAddr, statusCode := code }

/-- The text of one `fmt.Fprintf(w, "%s: %s\n", name, v)` of `Whoami`. -/
def Whoami.line (name v : String) : String :=
  name ++ ": " ++ v ++ "\n"

/-- The pairs `(name, v)` for which the two loops of `Whoami` write a line, in
the order of writing, when the outer loop visits `entries`. -/
def Whoami.pairs (attributes : Attributes) (entries : List (String × GoSlice String)) :
    List (String × String) :=
  entries.flatMap (fun e => (attributes.get e.1).range.map (fun v => (e.1, v)))

/-- The lines of a text, read from left to right with the characters of the
current line in `cur`: the pieces that end at a newline, without it, and the
text after the last newline when there is some. -/
def textLines (cur : List Char) : List Char → List (List Char)
  | [] => if cur.isEmpty then [] else [cur.reverse]
  | c :: rest =>
    if c = '\n' then cur.reverse :: textLines [] rest else textLines (c :: cur) rest

/-! ## A stand-in for reference resolution in net/url

The theorems on the handlers hold for every `NetURL`.  To evaluate
`startAuthFlow` on concrete references, the definitions below follow what Go
documents for `(*URL).Parse`: the reference is parsed, then resolved against the
receiver as in RFC 3986, section 5.2.  They cover references made of a scheme, an
authority and a path; query, fragment, user information, escapes and the removal
of dot segments are left out. -/

/-- The scheme scan of Go `url.Parse`: letters, and after the first character
digits, `+`, `-` and `.`, up to a colon.  A colon in first position is the error
`missing protocol scheme`; any other character ends the scan without a scheme.
The result is the scheme and the text that follows it. -/
def getScheme (seen : List Char) : List Char → Except GoError (List Char × List Char)
  | [] => Except.ok ([], seen.reverse)
  | c :: rest =>
    if c.isAlpha then getScheme (c :: seen) rest
    else if c.isDigit || c == '+' || c == '-' || c == '.' then
      if seen.isEmpty then Except.ok ([], c :: rest) else getScheme (c :: seen) rest
    else if c == ':' then
      if seen.isEmpty then Except.error (GoError.other "missing protocol scheme")
      else Except.ok (seen.reverse, rest)
    else Except.ok ([], seen.reverse ++ c :: rest)

/-- A reference as Go `url.Parse` reads it: the scheme in lower case, then,
after `//`, the authority up to the next `/`, then the path. -/
def parseReference (ref : String) : Except GoError URL :=
  match getScheme [] ref.data with
  | Except.error err => Except.error err
  | Except.ok (scheme, rest) =>
    match rest with
    | '/' :: '/' :: after =>
      Except.ok { Scheme := String.mk (scheme.map Char.toLower),
                  Host := String.mk (after.takeWhile (fun c => c != '/')),
                  Path := String.mk (after.dropWhile (fun c => c != '/')),
                  RawQuery := "", Fragment := "" }
    | _ =>
      Except.ok { Scheme := String.mk (scheme.map Char.toLower), Host := "",
                  Path := String.mk rest, RawQuery := "", Fragment := "" }

/-- The path of the base up to and with its last `/`, as RFC 3986 merges paths. -/
def mergeBase (path : List Char) : List Char :=
  (path.reverse.dropWhile (fun c => c != '/')).reverse

/-- Go `base.ResolveReference(ref)`: a reference with a scheme or a host keeps
its own host (and its scheme when it has one); a reference with a path only
takes scheme and host from the base. -/
def resolveReference (base ref : URL) : URL :=
  if ref.Scheme ≠ "" ∨ ref.Host ≠ "" then
    { ref with Scheme := if ref.Scheme = "" then base.Scheme else ref.Scheme }
  else if ref.Path = "" then
    { base with Fragment := ref.Fragment }
  else
    { Scheme := base.Scheme, Host := base.Host,
      Path := match ref.Path.data with
        | '/' :: _ => ref.Path
        | _ => "/" ++ String.mk ((mergeBase base.Path.data).dropWhile (fun c => c == '/'))
                 ++ ref.Path,
      RawQuery := ref.RawQuery, Fragment := ref.Fragment }

/-- The stand-in: `Parse` as above; as in `fakeNetURL`, the query of a URL is the
bare value of `rd`. -/
def rfcNetURL : NetURL :=
  { urlString := fun u =>
      (if u.Scheme = "" then "" else u.Scheme ++ "://") ++ u.Host ++ u.Path ++
        (if u.RawQuery = "" then "" else "?rd=" ++ u.RawQuery),
    queryGet := fun u key => if key = "rd" then u.RawQuery else "",
    parse := fun base ref =>
      match parseReference ref with
      | Except.error err => Except.error err
      | Except.ok refURL => Except.ok (resolveReference base refURL) }

/-! ## Lemmas on the policy matcher -/

theorem GoSlice.slice_len_eq_length {α : Type} (s : GoSlice α) : s.len = s.range.length := by
  cases s <;> rfl

theorem GoMap.map_len_eq_length {β : Type} (m : GoMap β) : m.len = m.range.length := by
  cases m <;> rfl

theorem GoSlice.slice_len_eq_zero_iff {α : Type} (s : GoSlice α) :
    s.len = 0 ↔ s = GoSlice.nil ∨ s = GoSlice.mk [] := by
  cases s with
  | nil => simp [GoSlice.len]
  | mk elems => cases elems <;> simp [GoSlice.len]

theorem GoMap.map_len_eq_zero_iff {β : Type} (m : GoMap β) :
    m.len = 0 ↔ m = GoMap.nil ∨ m = GoMap.mk [] := by
  cases m with
  | nil => simp [GoMap.len]
  | mk entries => cases entries <;> simp [GoMap.len]

theorem aclCheckAND.scan_iff (want : String) (values : List String) :
    aclCheckAND.scan want values = true ↔ want ∈ values := by
  induction values with
  | nil => simp [aclCheckAND.scan]
  | cons got rest ih =>
    by_cases h : got = want
    · simp [aclCheckAND.scan, h]
    · have h2 : ¬ want = got := fun e => h e.symm
      simp [aclCheckAND.scan, h, h2, ih]

theorem aclCheckAND.and_loop_iff (attributes : Attributes) (entries : List (String × String)) :
    aclCheckAND.loop attributes entries = true ↔
      ∀ name want, (name, want) ∈ entries →
        ∃ values, attributes.index name = some values ∧ want ∈ values.range := by
  induction entries with
  | nil => simp [aclCheckAND.loop]
  | cons e rest ih =>
    obtain ⟨name, want⟩ := e
    unfold aclCheckAND.loop
    cases hidx : attributes.index name with
    | none =>
      simp only [Bool.false_eq_true, false_iff]
      intro hall
      obtain ⟨values, hv, _⟩ := hall name want (List.mem_cons_self _ _)
      rw [hidx] at hv
      cases hv
    | some values =>
      by_cases hs : aclCheckAND.scan want values.range = true
      · simp only [hs, if_true, ih]
        constructor
        · intro hrest n w hmem
          rcases List.mem_cons.mp hmem with heq | hmem
          · cases heq
            exact ⟨values, hidx, (aclCheckAND.scan_iff _ _).mp hs⟩
          · exact hrest n w hmem
        · intro hall n w hmem
          exact hall n w (List.mem_cons_of_mem _ hmem)
      · simp only [hs, Bool.false_eq_true, if_false, false_iff]
        intro hall
        obtain ⟨values2, hv, hmem⟩ := hall name want (List.mem_cons_self _ _)
        rw [hidx] at hv
        cases hv
        exact hs ((aclCheckAND.scan_iff _ _).mpr hmem)

theorem aclCheckAND_iff (attributes : Attributes) (r : requirement) :
    aclCheckAND attributes r = true ↔
      ∀ name want, (name, want) ∈ r.range →
        ∃ values, attributes.index name = some values ∧ want ∈ values.range :=
  aclCheckAND.and_loop_iff attributes r.range

theorem aclCheckOR.or_loop_iff (attributes : Attributes) (requirements : List requirement) :
    aclCheckOR.loop attributes requirements = true ↔
      ∃ r, r ∈ requirements ∧ aclCheckAND attributes r = true := by
  induction requirements with
  | nil => simp [aclCheckOR.loop]
  | cons r rest ih =>
    unfold aclCheckOR.loop
    by_cases h : aclCheckAND attributes r = true
    · simp only [h, if_true, true_iff]
      exact ⟨r, List.mem_cons_self _ _, h⟩
    · simp only [h, Bool.false_eq_true, if_false, ih]
      constructor
      · rintro ⟨q, hq, hok⟩
        exact ⟨q, List.mem_cons_of_mem _ hq, hok⟩
      · rintro ⟨q, hq, hok⟩
        rcases List.mem_cons.mp hq with heq | hq
        · exact absurd (heq ▸ hok) h
        · exact ⟨q, hq, hok⟩

theorem checkACL_eq (s : AuthService) (attributes : Attributes) :
    s.checkACL attributes =
      if s.RequiredAttributes.len = 0 then true
      else if attributes.len = 0 then false
      else aclCheckOR attributes s.RequiredAttributes := by
  unfold AuthService.checkACL
  by_cases hP : s.RequiredAttributes.len = 0 <;> by_cases hA : attributes.len = 0 <;>
    simp [hP, hA, Nat.pos_iff_ne_zero]

theorem aclCheckOR_iff (attributes : Attributes) (requirements : GoSlice requirement) :
    aclCheckOR attributes requirements = true ↔
      ∃ r, r ∈ requirements.range ∧ aclCheckAND attributes r = true :=
  aclCheckOR.or_loop_iff attributes requirements.range

/-! ## Lemmas on the handlers -/

theorem http.Error_code (w : ResponseWriter) (text : String) (code : Nat)
    (h : w.code = none) : (http.Error w text code).code = some code := by
  simp [http.Error, ResponseWriter.Write, ResponseWriter.WriteHeader,
    ResponseWriter.headerSet, h]

theorem httpError_code (net : NetURL) (s : AuthService) (x : State) (code : Nat)
    (h : x.w.code = none) : (s.httpError net x code).w.code = some code := by
  simp [AuthService.httpError, http.Error_code _ _ _ h]

theorem httpError_flow (net : NetURL) (s : AuthService) (x : State) (code : Nat) :
    (s.httpError net x code).flow = x.flow := rfl

theorem httpError_r (net : NetURL) (s : AuthService) (x : State) (code : Nat) :
    (s.httpError net x code).r = x.r := rfl

theorem getAttributes_ok (s : AuthService) (r : Request) (A : Attributes)
    (h : s.SP.GetSession r = (Session.withAttributes A, none)) :
    s.getAttributes r = (A, none) := by
  simp [AuthService.getAttributes, h]

theorem getAttributes_err (s : AuthService) (r : Request) (session : Session) (err : GoError)
    (h : s.SP.GetSession r = (session, some err)) :
    s.getAttributes r = (GoMap.nil, some err) := by
  simp [AuthService.getAttributes, h]

theorem getAttributes_nil (s : AuthService) (r : Request)
    (h : s.SP.GetSession r = (Session.nil, none)) :
    s.getAttributes r = (GoMap.nil, some errNoAttributes) := by
  simp [AuthService.getAttributes, h]

theorem getAttributes_withoutAttributes (s : AuthService) (r : Request)
    (h : s.SP.GetSession r = (Session.withoutAttributes, none)) :
    s.getAttributes r = (GoMap.nil, some errNoAttributes) := by
  simp [AuthService.getAttributes, h]

/-- The results of `getAttributes`, by the result of the session provider: it
succeeds exactly on a session with attributes returned without error. -/
theorem getAttributes_cases (s : AuthService) (r : Request) :
    (∃ A, s.SP.GetSession r = (Session.withAttributes A, none) ∧
      s.getAttributes r = (A, none)) ∨
    ((¬ ∃ A, s.SP.GetSession r = (Session.withAttributes A, none)) ∧
      ∃ err, s.getAttributes r = (GoMap.nil, some err) ∧
        ((s.SP.GetSession r).2 = some err ∨
          ((s.SP.GetSession r).2 = none ∧ err = errNoAttributes))) := by
  rcases h : s.SP.GetSession r with ⟨session, err⟩
  cases err with
  | some e =>
    right
    exact ⟨by simp, e, getAttributes_err s r session e h, Or.inl rfl⟩
  | none =>
    cases session with
    | withAttributes A =>
      left
      exact ⟨A, rfl, getAttributes_ok s r A h⟩
    | nil =>
      right
      exact ⟨by simp, errNoAttributes, getAttributes_nil s r h, Or.inr ⟨rfl, rfl⟩⟩
    | withoutAttributes =>
      right
      exact ⟨by simp, errNoAttributes, getAttributes_withoutAttributes s r h, Or.inr ⟨rfl, rfl⟩⟩

theorem Auth.addValues_eq (name : String) (values : List String) (w : ResponseWriter) :
    AuthService.Auth.addValues name values w =
      { w with header := w.header ++
          values.map (fun v => (CanonicalMIMEHeaderKey ("X-" ++ name), v)) } := by
  induction values generalizing w with
  | nil => simp [AuthService.Auth.addValues]
  | cons v rest ih =>
    simp [AuthService.Auth.addValues, ih, ResponseWriter.headerAdd]

theorem Auth.addHeaders_eq (attributes : Attributes) (entries : List (String × GoSlice String))
    (w : ResponseWriter) :
    AuthService.Auth.addHeaders attributes entries w =
      { w with header := w.header ++ Auth.lines attributes entries } := by
  induction entries generalizing w with
  | nil => simp [AuthService.Auth.addHeaders, Auth.lines]
  | cons e rest ih =>
    obtain ⟨name, vs⟩ := e
    simp [AuthService.Auth.addHeaders, ih, Auth.addValues_eq, Auth.lines]

/-- On a resolved session that passes the policy, `Auth` leaves the state as it
was except for the response: the added lines, status 202, nothing written. -/
theorem Auth_ok_eq (net : NetURL) (s : AuthService) (r : Request) (A : Attributes)
    (h : s.SP.GetSession r = (Session.withAttributes A, none)) (hacl : s.checkACL A = true) :
    s.Auth net (State.init r) =
      { w := { header := Auth.lines A A.range, code := some 202, body := "" },
        r := r, log := [], flow := [] } := by
  simp [AuthService.Auth, getAttributes_ok s r A h, hacl, State.init, Auth.addHeaders_eq,
    AuthService.httpStatus, ResponseWriter.WriteHeader, ResponseWriter.fresh,
    http.StatusAccepted]

theorem Auth_denied_eq (net : NetURL) (s : AuthService) (r : Request) (A : Attributes)
    (h : s.SP.GetSession r = (Session.withAttributes A, none)) (hacl : s.checkACL A = false) :
    s.Auth net (State.init r) = s.httpError net (State.init r) 401 := by
  have hr : (State.init r).r = r := rfl
  simp [AuthService.Auth, hr, getAttributes_ok s r A h, hacl, http.StatusUnauthorized]

theorem Auth_failed_eq (net : NetURL) (s : AuthService) (r : Request) (A : Attributes)
    (err : GoError) (h : s.getAttributes r = (A, some err)) :
    s.Auth net (State.init r) = s.httpError net (State.init r) 401 := by
  have hr : (State.init r).r = r := rfl
  simp [AuthService.Auth, hr, h, http.StatusUnauthorized]

theorem Signin_ok_eq (net : NetURL) (s : AuthService) (r : Request) (A : Attributes)
    (h : s.SP.GetSession r = (Session.withAttributes A, none)) :
    s.Signin net (State.init r) =
      s.httpError net (State.init r) (if s.checkACL A = true then 500 else 403) := by
  have hr : (State.init r).r = r := rfl
  by_cases hacl : s.checkACL A = true <;>
    simp [AuthService.Signin, hr, getAttributes_ok s r A h, hacl,
      http.StatusInternalServerError, http.StatusForbidden]

theorem Signin_failed_eq (net : NetURL) (s : AuthService) (r : Request) (A : Attributes)
    (err : GoError) (h : s.getAttributes r = (A, some err)) :
    s.Signin net (State.init r) =
      if err = samlsp.ErrNoSession then s.startAuthFlow net (State.init r)
      else s.httpError net (State.init r) 500 := by
  have hr : (State.init r).r = r := rfl
  simp [AuthService.Signin, hr, h, http.StatusInternalServerError]

/-- The three ways `startAuthFlow` ends: no `rd`, an `rd` that does not resolve,
and the call of the middleware with the resolved location. -/
theorem startAuthFlow_cases (net : NetURL) (s : AuthService) (r : Request) :
    (net.queryGet r.URL "rd" = "" ∧
      s.startAuthFlow net (State.init r) = s.httpError net (State.init r) 400) ∨
    (net.queryGet r.URL "rd" ≠ "" ∧
      ∃ err, net.parse s.RootURL (net.queryGet r.URL "rd") = Except.error err ∧
        s.startAuthFlow net (State.init r) = s.httpError net (State.init r) 500) ∨
    (net.queryGet r.URL "rd" ≠ "" ∧
      ∃ cleanURL, net.parse s.RootURL (net.queryGet r.URL "rd") = Except.ok cleanURL ∧
        s.startAuthFlow net (State.init r) =
          { w := s.M.HandleStartAuthFlow ResponseWriter.fresh { r with URL := cleanURL },
            r := { r with URL := cleanURL }, log := [],
            flow := [{ r with URL := cleanURL }] }) := by
  have hr : (State.init r).r = r := rfl
  by_cases hrd : net.queryGet r.URL "rd" = ""
  · left
    exact ⟨hrd, by simp [AuthService.startAuthFlow, hr, hrd, http.StatusBadRequest]⟩
  · right
    cases hp : net.parse s.RootURL (net.queryGet r.URL "rd") with
    | error err =>
      left
      exact ⟨hrd, err, rfl,
        by simp [AuthService.startAuthFlow, hr, hrd, hp, http.StatusInternalServerError]⟩
    | ok cleanURL =>
      right
      exact ⟨hrd, cleanURL, rfl, by simp [AuthService.startAuthFlow, hr, hrd, hp, State.init]⟩

theorem Whoami.writeValues_code (name : String) (values : List String) (w : ResponseWriter)
    (c : Nat) (h : w.code = some c) :
    (AuthService.Whoami.writeValues name values w).code = some c := by
  induction values generalizing w with
  | nil => simpa [AuthService.Whoami.writeValues] using h
  | cons v rest ih =>
    unfold AuthService.Whoami.writeValues
    apply ih
    simp [ResponseWriter.Write, ResponseWriter.WriteHeader, h]

theorem Whoami.writeLines_code (attributes : Attributes)
    (entries : List (String × GoSlice String)) (w : ResponseWriter) (c : Nat)
    (h : w.code = some c) :
    (AuthService.Whoami.writeLines attributes entries w).code = some c := by
  induction entries generalizing w with
  | nil => simpa [AuthService.Whoami.writeLines] using h
  | cons e rest ih =>
    obtain ⟨name, vs⟩ := e
    unfold AuthService.Whoami.writeLines
    exact ih _ (Whoami.writeValues_code _ _ _ _ h)

theorem Whoami_ok_code (net : NetURL) (s : AuthService) (r : Request) (A : Attributes)
    (h : s.SP.GetSession r = (Session.withAttributes A, none)) :
    (s.Whoami net (State.init r)).w.code = some 200 := by
  have hr : (State.init r).r = r := rfl
  simp only [AuthService.Whoami, hr, getAttributes_ok s r A h]
  apply Whoami.writeLines_code
  simp [AuthService.httpStatus, ResponseWriter.WriteHeader, State.init, ResponseWriter.fresh,
    http.StatusOK]

theorem Whoami_failed_eq (net : NetURL) (s : AuthService) (r : Request) (A : Attributes)
    (err : GoError) (h : s.getAttributes r = (A, some err)) :
    s.Whoami net (State.init r) = s.httpError net (State.init r) 401 := by
  have hr : (State.init r).r = r := rfl
  simp [AuthService.Whoami, hr, h, http.StatusUnauthorized]

theorem init_code (r : Request) : (State.init r).w.code = none := rfl

theorem lookup_of_mem_nodup {β : Type} (entries : List (String × β))
    (hnd : (entries.map Prod.fst).Nodup) (k : String) (v : β) (hm : (k, v) ∈ entries) :
    entries.lookup k = some v := by
  induction entries with
  | nil => cases hm
  | cons e rest ih =>
    obtain ⟨k2, v2⟩ := e
    simp only [List.map_cons, List.nodup_cons] at hnd
    rcases List.mem_cons.mp hm with heq | hrest
    · cases heq
      simp [List.lookup]
    · have hne : k ≠ k2 := by
        intro he
        apply hnd.1
        rw [← he]
        exact List.mem_map.mpr ⟨(k, v), hrest, rfl⟩
      have hb : (k == k2) = false := by simpa using hne
      simp [List.lookup, hb, ih hnd.2 hrest]

theorem get_of_mem (A : Attributes) (hA : A.keysNodup) (n : String) (values : GoSlice String)
    (hm : (n, values) ∈ A.range) : A.get n = values := by
  cases A with
  | nil => cases hm
  | mk entries =>
    have hl : entries.lookup n = some values := lookup_of_mem_nodup entries hA n values hm
    simp [Attributes.get, GoMap.index, hl]

theorem Auth.lines_eq (A : Attributes) (entries : List (String × GoSlice String))
    (h : ∀ e, e ∈ entries → A.get e.1 = e.2) :
    Auth.lines A entries =
      entries.flatMap (fun e =>
        e.2.range.map (fun v => (CanonicalMIMEHeaderKey ("X-" ++ e.1), v))) := by
  induction entries with
  | nil => rfl
  | cons e rest ih =>
    have hrest := ih (fun e2 h2 => h e2 (List.mem_cons_of_mem _ h2))
    unfold Auth.lines at hrest ⊢
    simp only [List.flatMap_cons, hrest, h e (List.mem_cons_self _ _)]

theorem values_of_line (k key : String) (values : List String) :
    ((values.map (fun v => (CanonicalMIMEHeaderKey ("X-" ++ k), v))).filter
        (fun line => line.1 == key)).map Prod.snd =
      if CanonicalMIMEHeaderKey ("X-" ++ k) = key then values else [] := by
  by_cases h : CanonicalMIMEHeaderKey ("X-" ++ k) = key
  · simp [List.filter_map, Function.comp_def, h]
  · simp [List.filter_map, Function.comp_def, h]

theorem values_of_lines (entries : List (String × GoSlice String)) (key : String) :
    ((entries.flatMap (fun e =>
        e.2.range.map (fun v => (CanonicalMIMEHeaderKey ("X-" ++ e.1), v)))).filter
        (fun line => line.1 == key)).map Prod.snd =
      (entries.filter (fun e => CanonicalMIMEHeaderKey ("X-" ++ e.1) == key)).flatMap
        (fun e => e.2.range) := by
  induction entries with
  | nil => rfl
  | cons e rest ih =>
    simp only [List.flatMap_cons, List.filter_append, List.map_append, ih, values_of_line]
    by_cases h : CanonicalMIMEHeaderKey ("X-" ++ e.1) = key
    · simp [List.filter_cons, h]
    · simp [List.filter_cons, h]

theorem filter_key_of_mem (entries : List (String × GoSlice String))
    (hnd : (entries.map Prod.fst).Nodup) (n : String) (values : GoSlice String)
    (hm : (n, values) ∈ entries) :
    entries.filter (fun e => e.1 == n) = [(n, values)] := by
  induction entries with
  | nil => cases hm
  | cons e rest ih =>
    obtain ⟨k2, v2⟩ := e
    simp only [List.map_cons, List.nodup_cons] at hnd
    rcases List.mem_cons.mp hm with heq | hrest
    · cases heq
      have hnone : rest.filter (fun e => e.1 == n) = [] := by
        rw [List.filter_eq_nil_iff]
        intro e he hk
        apply hnd.1
        have hk2 : e.1 = n := by simpa using hk
        rw [← hk2]
        exact List.mem_map.mpr ⟨e, he, rfl⟩
      simp [List.filter_cons, hnone]
    · have hne : ¬ k2 = n := by
        intro he
        apply hnd.1
        rw [he]
        exact List.mem_map.mpr ⟨(n, values), hrest, rfl⟩
      simp [List.filter_cons, hne, ih hnd.2 hrest]

theorem filter_key_of_not_mem (entries : List (String × GoSlice String)) (n : String)
    (hn : n ∉ entries.map Prod.fst) :
    entries.filter (fun e => e.1 == n) = [] := by
  rw [List.filter_eq_nil_iff]
  intro e he hk
  apply hn
  have hk2 : e.1 = n := by simpa using hk
  rw [← hk2]
  exact List.mem_map.mpr ⟨e, he, rfl⟩

theorem length_of_lines (entries : List (String × GoSlice String)) :
    (entries.flatMap (fun e =>
      e.2.range.map (fun v => (CanonicalMIMEHeaderKey ("X-" ++ e.1), v)))).length =
      (entries.map (fun e => e.2.len)).sum := by
  induction entries with
  | nil => rfl
  | cons e rest ih =>
    simp [List.flatMap_cons, ih, GoSlice.slice_len_eq_length]

/-! ## The policy matcher: `checkACL`, `aclCheckOR`, `aclCheckAND` -/

/-- C2, as stated, fails: with the policy made of one zero-entry requirement and
an attribute set without entries, `checkACL` is false although the requirement
is met (it asks nothing). -/
theorem checkACL_iff_exists_counterexample :
    (fakeAuthService unknownUser (GoSlice.mk [GoMap.mk []])).RequiredAttributes.len ≠ 0 ∧
    (fakeAuthService unknownUser (GoSlice.mk [GoMap.mk []])).checkACL (GoMap.mk []) = false ∧
    ∃ r, r ∈ (fakeAuthService unknownUser (GoSlice.mk [GoMap.mk []])).RequiredAttributes.range ∧
      ∀ name want, (name, want) ∈ r.range →
        ∃ values, (GoMap.mk [] : Attributes).index name = some values ∧ want ∈ values.range := by
  refine ⟨by decide, by decide, GoMap.mk [], ?_, ?_⟩
  · simp [fakeAuthService, GoSlice.range]
  · intro name want h
    simp [GoMap.range] at h

/-- C2, amended: for every attribute set `A` and every non-empty policy,
`checkACL A` is true if and only if `A` has at least one entry and some
requirement `r` of the policy has, for each of its entries `(name, want)`, the
key `name` in `A` with `want` among the values of `A[name]`. -/
theorem checkACL_iff_exists (s : AuthService) (A : Attributes)
    (hP : s.RequiredAttributes.len ≠ 0) :
    s.checkACL A = true ↔
      A.len ≠ 0 ∧
      ∃ r, r ∈ s.RequiredAttributes.range ∧
        ∀ name want, (name, want) ∈ r.range →
          ∃ values, A.index name = some values ∧ want ∈ values.range := by
  rw [checkACL_eq, if_neg hP]
  by_cases hA : A.len = 0
  · simp [hA]
  · rw [if_neg hA, aclCheckOR_iff]
    constructor
    · rintro ⟨r, hr, hok⟩
      exact ⟨hA, r, hr, (aclCheckAND_iff A r).mp hok⟩
    · rintro ⟨_, r, hr, hok⟩
      exact ⟨r, hr, (aclCheckAND_iff A r).mpr hok⟩

/-- Witness of C2 amended, on the policy and attributes of `TestAuthHandlerSuccess`. -/
theorem checkACL_iff_exists_witness :
    (fakeAuthService validUser (GoSlice.mk [GoMap.mk [("groupX", "admins")],
        GoMap.mk [("name", "Alice")], GoMap.mk [("name", "Bob")]])).RequiredAttributes.len ≠ 0 ∧
    ((fakeAuthService validUser (GoSlice.mk [GoMap.mk [("groupX", "admins")],
        GoMap.mk [("name", "Alice")], GoMap.mk [("name", "Bob")]])).checkACL
        (GoMap.mk [("name", GoSlice.mk ["Alice"])]) = true ↔
      (GoMap.mk [("name", GoSlice.mk ["Alice"])] : Attributes).len ≠ 0 ∧
      ∃ r, r ∈ (fakeAuthService validUser (GoSlice.mk [GoMap.mk [("groupX", "admins")],
          GoMap.mk [("name", "Alice")], GoMap.mk [("name", "Bob")]])).RequiredAttributes.range ∧
        ∀ name want, (name, want) ∈ r.range →
          ∃ values, (GoMap.mk [("name", GoSlice.mk ["Alice"])] : Attributes).index name
            = some values ∧ want ∈ values.range) :=
  ⟨by decide, checkACL_iff_exists _ _ (by decide)⟩

/-- C3: for every attribute set `A`, nil, empty or not, `checkACL A` is true when
the policy `RequiredAttributes` is the nil slice or a slice of length zero. -/
theorem checkACL_empty_policy (s : AuthService) (A : Attributes)
    (hP : s.RequiredAttributes = GoSlice.nil ∨ s.RequiredAttributes = GoSlice.mk []) :
    s.checkACL A = true := by
  rw [checkACL_eq, if_pos ((GoSlice.slice_len_eq_zero_iff _).mpr hP)]

/-- Witness of C3, on the nil policy of `TestCheckACL/EmptyAttrShouldPass` and on
the allocated empty policy with nil attributes. -/
theorem checkACL_empty_policy_witness :
    (fakeAuthService validUser GoSlice.nil).checkACL
        (GoMap.mk [("name", GoSlice.mk ["Alice"]), ("email", GoSlice.mk ["alice@example.com"])])
      = true ∧
    (fakeAuthService validUser (GoSlice.mk [])).checkACL GoMap.nil = true :=
  ⟨checkACL_empty_policy _ _ (Or.inl rfl), checkACL_empty_policy _ _ (Or.inr rfl)⟩

/-- C4: for every non-empty policy, whatever its requirements, `checkACL` of the
nil attribute map or of the allocated map without entries is false. -/
theorem checkACL_no_attributes (s : AuthService) (A : Attributes)
    (hP : s.RequiredAttributes.len ≠ 0) (hA : A = GoMap.nil ∨ A = GoMap.mk []) :
    s.checkACL A = false := by
  rw [checkACL_eq, if_neg hP, if_pos ((GoMap.map_len_eq_zero_iff _).mpr hA)]

/-- Witness of C4, on `TestCheckACL/RequireAttrButNoAttrShouldFail` and on a
policy that holds a zero-entry requirement, with the nil map. -/
theorem checkACL_no_attributes_witness :
    (fakeAuthService validUser (GoSlice.mk [GoMap.mk [("name", "Alice")]])).checkACL
        (GoMap.mk []) = false ∧
    (fakeAuthService validUser (GoSlice.mk [GoMap.mk []])).checkACL GoMap.nil = false :=
  ⟨checkACL_no_attributes _ _ (by decide) (Or.inr rfl),
   checkACL_no_attributes _ _ (by decide) (Or.inl rfl)⟩

/-- C5: `aclCheckAND A r` is true if and only if every entry `(name, want)` of `r`
has the key `name` in `A` with `want` among the values of `A[name]`.  So a
requirement without entries (nil or empty) is met by every `A`, and an entry
whose name is missing from `A`, or is mapped to a slice without elements, makes
`aclCheckAND` false. -/
theorem aclCheckAND_spec (A : Attributes) (r : requirement) :
    (aclCheckAND A r = true ↔
      ∀ name want, (name, want) ∈ r.range →
        ∃ values, A.index name = some values ∧ want ∈ values.range) ∧
    (r.len = 0 → aclCheckAND A r = true) ∧
    (∀ name want, (name, want) ∈ r.range → A.index name = none →
      aclCheckAND A r = false) ∧
    (∀ name want values, (name, want) ∈ r.range → A.index name = some values →
      values.len = 0 → aclCheckAND A r = false) := by
  refine ⟨aclCheckAND_iff A r, ?_, ?_, ?_⟩
  · intro h
    rw [aclCheckAND_iff]
    intro name want hmem
    rw [GoMap.map_len_eq_length] at h
    rw [List.length_eq_zero.mp h] at hmem
    cases hmem
  · intro name want hmem hidx
    rw [← Bool.not_eq_true, aclCheckAND_iff]
    intro hall
    obtain ⟨values, hv, _⟩ := hall name want hmem
    rw [hidx] at hv
    cases hv
  · intro name want values hmem hidx hlen
    rw [← Bool.not_eq_true, aclCheckAND_iff]
    intro hall
    obtain ⟨values2, hv, hin⟩ := hall name want hmem
    rw [hidx] at hv
    cases hv
    rw [GoSlice.slice_len_eq_length] at hlen
    rw [List.length_eq_zero.mp hlen] at hin
    cases hin

/-- Witness of C5: the zero-entry requirement on the nil attribute map, a missing
name, and a name mapped to the nil slice. -/
theorem aclCheckAND_spec_witness :
    aclCheckAND GoMap.nil (GoMap.mk []) = true ∧
    aclCheckAND (GoMap.mk [("name", GoSlice.mk ["Alice"])]) (GoMap.mk [("sn", "Doe")]) = false ∧
    aclCheckAND (GoMap.mk [("name", GoSlice.nil)]) (GoMap.mk [("name", "Alice")]) = false :=
  ⟨(aclCheckAND_spec _ _).2.1 rfl,
   (aclCheckAND_spec _ _).2.2.1 "sn" "Doe" (by decide) (by decide),
   (aclCheckAND_spec _ _).2.2.2 "name" "Alice" GoSlice.nil (by decide) (by decide) rfl⟩

/-- C6: `aclCheckOR A P` is true if and only if the requirement at some position
of `P` has `aclCheckAND A r = true`; it is false for a policy without elements. -/
theorem aclCheckOR_spec (A : Attributes) (P : GoSlice requirement) :
    (aclCheckOR A P = true ↔
      ∃ (i : Nat) (r : requirement), P.range[i]? = some r ∧ aclCheckAND A r = true) ∧
    (P.len = 0 → aclCheckOR A P = false) := by
  constructor
  · rw [aclCheckOR_iff]
    constructor
    · rintro ⟨r, hr, hok⟩
      obtain ⟨i, hi⟩ := List.mem_iff_getElem?.mp hr
      exact ⟨i, r, hi, hok⟩
    · rintro ⟨i, r, hi, hok⟩
      exact ⟨r, List.mem_iff_getElem?.mpr ⟨i, hi⟩, hok⟩
  · intro h
    rw [← Bool.not_eq_true, aclCheckOR_iff]
    rintro ⟨r, hr, _⟩
    rw [GoSlice.slice_len_eq_length] at h
    rw [List.length_eq_zero.mp h] at hr
    cases hr

/-- Witness of C6: the nil policy, and a policy met at its last position only
(`TestAclCheckOR/MultipleAttrMultipleReqShouldPass`). -/
theorem aclCheckOR_spec_witness :
    aclCheckOR (GoMap.mk [("name", GoSlice.mk ["Alice"])]) GoSlice.nil = false ∧
    aclCheckOR
      (GoMap.mk [("name", GoSlice.mk ["Carol"]),
                 ("email", GoSlice.mk ["carol@example.com", "carol@example.org"])])
      (GoSlice.mk [GoMap.mk [("name", "Alice"), ("email", "alice@example.org")],
                   GoMap.mk [("name", "Carol"), ("email", "carol@example.org"), ("sn", "Doe")],
                   GoMap.mk [("email", "carol@example.org")]]) = true :=
  ⟨(aclCheckOR_spec _ _).2 rfl,
   (aclCheckOR_spec _ _).1.mpr ⟨2, GoMap.mk [("email", "carol@example.org")], rfl, by decide⟩⟩

/-! ## The handlers: `Auth`, `Signin`, `Whoami` -/

/-- C1: `Auth` answers 202 if and only if `GetSession` returns, without error, a
session that exposes attributes `A`, and `checkACL A` is true; in every other
case (an error of any kind, a nil session or one without attributes, a policy
that is not met) it answers 401.  No other status is written. -/
theorem Auth_fail_closed (net : NetURL) (s : AuthService) (r : Request) :
    ((s.Auth net (State.init r)).w.code = some 202 ↔
      ∃ A, s.SP.GetSession r = (Session.withAttributes A, none) ∧ s.checkACL A = true) ∧
    ((¬ ∃ A, s.SP.GetSession r = (Session.withAttributes A, none) ∧ s.checkACL A = true) →
      (s.Auth net (State.init r)).w.code = some 401) ∧
    ((s.Auth net (State.init r)).w.code = some 202 ∨
      (s.Auth net (State.init r)).w.code = some 401) := by
  rcases getAttributes_cases s r with ⟨A, hses, _⟩ | ⟨hno, err, hget, _⟩
  · by_cases hacl : s.checkACL A = true
    · have hcode : (s.Auth net (State.init r)).w.code = some 202 := by
        rw [Auth_ok_eq net s r A hses hacl]
      exact ⟨⟨fun _ => ⟨A, hses, hacl⟩, fun _ => hcode⟩,
        fun hn => absurd ⟨A, hses, hacl⟩ hn, Or.inl hcode⟩
    · have hcode : (s.Auth net (State.init r)).w.code = some 401 := by
        rw [Auth_denied_eq net s r A hses (by simpa using hacl)]
        exact httpError_code net s _ 401 (init_code r)
      refine ⟨⟨fun h => ?_, fun h => ?_⟩, fun _ => hcode, Or.inr hcode⟩
      · rw [hcode] at h
        cases h
      · obtain ⟨B, hB, hBacl⟩ := h
        rw [hses] at hB
        cases hB
        exact absurd hBacl hacl
  · have hcode : (s.Auth net (State.init r)).w.code = some 401 := by
      rw [Auth_failed_eq net s r _ err hget]
      exact httpError_code net s _ 401 (init_code r)
    refine ⟨⟨fun h => ?_, fun h => ?_⟩, fun _ => hcode, Or.inr hcode⟩
    · rw [hcode] at h
      cases h
    · obtain ⟨B, hB, _⟩ := h
      exact absurd ⟨B, hB⟩ hno

/-- Witness of C1: the three handlers tests of `Auth`, no session (401), a policy
that is not met (401), and `TestAuthHandlerSuccess` (202). -/
theorem Auth_fail_closed_witness :
    ((fakeAuthService unknownUser GoSlice.nil).Auth fakeNetURL
        (State.init (fakeRequest "/saml/auth" ""))).w.code = some 401 ∧
    ((fakeAuthService validUser (GoSlice.mk [GoMap.mk [("group", "admins")]])).Auth fakeNetURL
        (State.init (fakeRequest "/saml/auth" ""))).w.code = some 401 ∧
    ((fakeAuthService validUser (GoSlice.mk [GoMap.mk [("groupX", "admins")],
        GoMap.mk [("name", "Alice")], GoMap.mk [("name", "Bob")]])).Auth fakeNetURL
        (State.init (fakeRequest "/saml/auth" ""))).w.code = some 202 :=
  ⟨(Auth_fail_closed _ _ _).2.1 (fun ⟨_, h, _⟩ => by cases h),
   (Auth_fail_closed _ _ _).2.1 (by
      rintro ⟨A, h, hacl⟩
      cases h
      revert hacl
      decide),
   (Auth_fail_closed _ _ _).1.mpr ⟨_, rfl, by decide⟩⟩

/-- C7: when the session of the request exposes attributes `A`, `Signin` answers
403 if `checkACL A` is false and 500 if it is true; in both cases the run is
that of `httpError`, `HandleStartAuthFlow` is not called and the request is left
as it was.  On every
request, when `Signin` ends without calling `HandleStartAuthFlow` the status it
wrote is 400, 403 or 500, never one from 200 to 299; otherwise the response is
the one the middleware wrote. -/
theorem Signin_resolved_session (net : NetURL) (s : AuthService) (r : Request) :
    (∀ A, s.SP.GetSession r = (Session.withAttributes A, none) →
      (s.checkACL A = false → (s.Signin net (State.init r)).w.code = some 403) ∧
      (s.checkACL A = true → (s.Signin net (State.init r)).w.code = some 500) ∧
      (s.Signin net (State.init r)).flow = [] ∧
      (s.Signin net (State.init r)).r = r ∧
      s.Signin net (State.init r) =
        s.httpError net (State.init r) (if s.checkACL A = true then 500 else 403)) ∧
    ((s.Signin net (State.init r)).flow = [] →
      ∃ c, (s.Signin net (State.init r)).w.code = some c ∧
        (c = 400 ∨ c = 403 ∨ c = 500) ∧ ¬ (200 ≤ c ∧ c ≤ 299)) ∧
    ((s.Signin net (State.init r)).flow ≠ [] →
      ∃ r2, (s.Signin net (State.init r)).flow = [r2] ∧
        (s.Signin net (State.init r)).w = s.M.HandleStartAuthFlow ResponseWriter.fresh r2) := by
  have key : ∀ c, (c = 400 ∨ c = 403 ∨ c = 500) →
      s.Signin net (State.init r) = s.httpError net (State.init r) c →
      ((s.Signin net (State.init r)).flow = [] →
        ∃ c, (s.Signin net (State.init r)).w.code = some c ∧
          (c = 400 ∨ c = 403 ∨ c = 500) ∧ ¬ (200 ≤ c ∧ c ≤ 299)) ∧
      ((s.Signin net (State.init r)).flow ≠ [] →
        ∃ r2, (s.Signin net (State.init r)).flow = [r2] ∧
          (s.Signin net (State.init r)).w =
            s.M.HandleStartAuthFlow ResponseWriter.fresh r2) := by
    intro c hc heq
    constructor
    · intro _
      refine ⟨c, ?_, hc, ?_⟩
      · rw [heq]
        exact httpError_code net s _ c (init_code r)
      · rcases hc with h | h | h <;> omega
    · intro hflow
      rw [heq] at hflow
      exact absurd rfl hflow
  constructor
  · intro A hses
    have heq := Signin_ok_eq net s r A hses
    refine ⟨fun hacl => ?_, fun hacl => ?_, ?_, ?_, heq⟩
    · rw [heq, hacl]
      exact httpError_code net s _ _ (init_code r)
    · rw [heq, hacl]
      exact httpError_code net s _ _ (init_code r)
    · rw [heq]
      rfl
    · rw [heq]
      rfl
  · rcases getAttributes_cases s r with ⟨A, hses, _⟩ | ⟨_, err, hget, _⟩
    · have heq := Signin_ok_eq net s r A hses
      by_cases hacl : s.checkACL A = true
      · rw [if_pos hacl] at heq
        exact key 500 (by simp) heq
      · rw [if_neg hacl] at heq
        exact key 403 (by simp) heq
    · have heq := Signin_failed_eq net s r _ err hget
      by_cases herr : err = samlsp.ErrNoSession
      · rw [if_pos herr] at heq
        rcases startAuthFlow_cases net s r with ⟨_, h⟩ | ⟨_, _, _, h⟩ | ⟨_, u, _, h⟩
        · exact key 400 (by simp) (heq.trans h)
        · exact key 500 (by simp) (heq.trans h)
        · rw [heq, h]
          exact ⟨fun hflow => (by cases hflow), fun _ => ⟨_, rfl, rfl⟩⟩
      · rw [if_neg herr] at heq
        exact key 500 (by simp) heq

/-- Witness of C7: `TestSigninHandlerLoggedInButNoPermissions` (403) and
`TestSigninHandlerAlreadyLoggedIn` (500), the middleware not called. -/
theorem Signin_resolved_session_witness :
    ((fakeAuthService validUser (GoSlice.mk [GoMap.mk [("group", "admins")]])).Signin fakeNetURL
        (State.init (fakeRequest "/saml/signin" "/"))).w.code = some 403 ∧
    ((fakeAuthService validUser GoSlice.nil).Signin fakeNetURL
        (State.init (fakeRequest "/saml/signin" "/"))).w.code = some 500 ∧
    ((fakeAuthService validUser GoSlice.nil).Signin fakeNetURL
        (State.init (fakeRequest "/saml/signin" "/"))).flow = [] :=
  ⟨((Signin_resolved_session _ _ _).1 _ rfl).1 (by decide),
   ((Signin_resolved_session _ _ _).1 _ rfl).2.1 (by decide),
   ((Signin_resolved_session _ _ _).1 _ rfl).2.2.1⟩

/-- C8: when `getAttributes` fails with `err`, `Signin` is `startAuthFlow` (same
response, request, log and middleware calls) if `err` is `samlsp.ErrNoSession`;
for every other `err`, `errNoAttributes` among them, it is `httpError` with 500:
the status is 500, `HandleStartAuthFlow` is not called and the request is left
as it was, whatever `rd` is. -/
theorem Signin_error_routing (net : NetURL) (s : AuthService) (r : Request)
    (A : Attributes) (err : GoError) (h : s.getAttributes r = (A, some err)) :
    (err = samlsp.ErrNoSession →
      s.Signin net (State.init r) = s.startAuthFlow net (State.init r)) ∧
    (err ≠ samlsp.ErrNoSession →
      s.Signin net (State.init r) = s.httpError net (State.init r) 500 ∧
      (s.Signin net (State.init r)).w.code = some 500 ∧
      (s.Signin net (State.init r)).flow = [] ∧
      (s.Signin net (State.init r)).r = r) ∧
    errNoAttributes ≠ samlsp.ErrNoSession := by
  have heq := Signin_failed_eq net s r A err h
  refine ⟨fun herr => ?_, fun herr => ?_, by decide⟩
  · rw [heq, if_pos herr]
  · rw [if_neg herr] at heq
    refine ⟨heq, ?_, ?_, ?_⟩
    · rw [heq]
      exact httpError_code net s _ 500 (init_code r)
    · rw [heq]
      rfl
    · rw [heq]
      rfl

/-- Witness of C8: `TestSigninHandlerWithoutSession` (the flow is started),
`TestSigninHandlerInvalidUser` and a session without attributes (500). -/
theorem Signin_error_routing_witness :
    (fakeAuthService unknownUser GoSlice.nil).Signin fakeNetURL
        (State.init (fakeRequest "/saml/signin" "/")) =
      (fakeAuthService unknownUser GoSlice.nil).startAuthFlow fakeNetURL
        (State.init (fakeRequest "/saml/signin" "/")) ∧
    ((fakeAuthService invalidUser GoSlice.nil).Signin fakeNetURL
        (State.init (fakeRequest "/saml/signin" "/"))).w.code = some 500 ∧
    ((fakeAuthService noattrUser GoSlice.nil).Signin fakeNetURL
        (State.init (fakeRequest "/saml/signin" "/"))).flow = [] :=
  ⟨(Signin_error_routing fakeNetURL (fakeAuthService unknownUser GoSlice.nil)
      (fakeRequest "/saml/signin" "/") GoMap.nil samlsp.ErrNoSession rfl).1 rfl,
   ((Signin_error_routing fakeNetURL (fakeAuthService invalidUser GoSlice.nil)
      (fakeRequest "/saml/signin" "/") GoMap.nil (GoError.other "invalid") rfl).2.1
      (by decide)).2.1,
   ((Signin_error_routing fakeNetURL (fakeAuthService noattrUser GoSlice.nil)
      (fakeRequest "/saml/signin" "/") GoMap.nil errNoAttributes rfl).2.1
      (by decide)).2.2.1⟩

/-- C10: `Whoami` applies no policy: for every provider result and every two
policies `P1`, `P2`, the handler run with `P1` and run with `P2` give the same
state (status, header, body, log).  Its status is 200 if and only if
`GetSession` returns, without error, a session that exposes attributes, and 401
in every other case. -/
theorem Whoami_no_policy_gate (net : NetURL) (s : AuthService) (r : Request)
    (P1 P2 : GoSlice requirement) :
    AuthService.Whoami net { s with RequiredAttributes := P1 } (State.init r) =
      AuthService.Whoami net { s with RequiredAttributes := P2 } (State.init r) ∧
    ((s.Whoami net (State.init r)).w.code = some 200 ↔
      ∃ A, s.SP.GetSession r = (Session.withAttributes A, none)) ∧
    ((¬ ∃ A, s.SP.GetSession r = (Session.withAttributes A, none)) →
      (s.Whoami net (State.init r)).w.code = some 401) := by
  refine ⟨rfl, ?_⟩
  rcases getAttributes_cases s r with ⟨A, hses, _⟩ | ⟨hno, err, hget, _⟩
  · have hcode := Whoami_ok_code net s r A hses
    exact ⟨⟨fun _ => ⟨A, hses⟩, fun _ => hcode⟩, fun hn => absurd ⟨A, hses⟩ hn⟩
  · have hcode : (s.Whoami net (State.init r)).w.code = some 401 := by
      rw [Whoami_failed_eq net s r _ err hget]
      exact httpError_code net s _ 401 (init_code r)
    refine ⟨⟨fun h => ?_, fun h => absurd h hno⟩, fun _ => hcode⟩
    rw [hcode] at h
    cases h

/-- Witness of C10: a session without attributes gives 401, and the attributes
of the test file give 200 under a policy they do not meet. -/
theorem Whoami_no_policy_gate_witness :
    ((fakeAuthService noattrUser GoSlice.nil).Whoami fakeNetURL
        (State.init (fakeRequest "/saml/whoami" ""))).w.code = some 401 ∧
    ((fakeAuthService validUser (GoSlice.mk [GoMap.mk [("group", "admins")]])).Whoami fakeNetURL
        (State.init (fakeRequest "/saml/whoami" ""))).w.code = some 200 :=
  ⟨(Whoami_no_policy_gate _ _ _ GoSlice.nil GoSlice.nil).2.2 (fun ⟨_, h⟩ => by cases h),
   (Whoami_no_policy_gate _ _ _ GoSlice.nil GoSlice.nil).2.1.mpr ⟨_, rfl⟩⟩

theorem filter_canonical_of_mem (entries : List (String × GoSlice String))
    (hnd : (entries.map Prod.fst).Nodup) (n : String) (values : GoSlice String)
    (hm : (n, values) ∈ entries)
    (hown : ∀ m, m ∈ entries.map Prod.fst →
      CanonicalMIMEHeaderKey ("X-" ++ m) = CanonicalMIMEHeaderKey ("X-" ++ n) → m = n) :
    entries.filter
        (fun e => CanonicalMIMEHeaderKey ("X-" ++ e.1) == CanonicalMIMEHeaderKey ("X-" ++ n)) =
      [(n, values)] := by
  rw [← filter_key_of_mem entries hnd n values hm]
  apply List.filter_congr
  intro e he
  by_cases h : e.1 = n
  · simp [h]
  · have hne : ¬ CanonicalMIMEHeaderKey ("X-" ++ e.1) = CanonicalMIMEHeaderKey ("X-" ++ n) :=
      fun hc => h (hown e.1 (List.mem_map.mpr ⟨e, he, rfl⟩) hc)
    simp [h, hne]

/-- C9, as stated, fails.  `http.Header` keeps a name under its canonical
spelling: for the attributes `{"name": ["a"], "Name": ["b"]}` the header named
`"X-" ++ "name"` holds `["a", "b"]`, not the values `["a"]` of `A["name"]`; and
on `TestAuthHandlerSuccess` the header named `"X-" ++ "Name"` holds `["Alice"]`
although `Name` is not a name of `A` (the test reads it so). -/
theorem Auth_success_headers_counterexample :
    (GoMap.mk [("name", GoSlice.mk ["a"]), ("Name", GoSlice.mk ["b"])] : Attributes).keysNodup ∧
    ((fakeAuthService
        (userWith (GoMap.mk [("name", GoSlice.mk ["a"]), ("Name", GoSlice.mk ["b"])]))
        GoSlice.nil).Auth fakeNetURL
        (State.init (fakeRequest "/saml/auth" ""))).w.code = some 202 ∧
    ((fakeAuthService
        (userWith (GoMap.mk [("name", GoSlice.mk ["a"]), ("Name", GoSlice.mk ["b"])]))
        GoSlice.nil).Auth fakeNetURL
        (State.init (fakeRequest "/saml/auth" ""))).w.headerValues ("X-" ++ "name") =
      ["a", "b"] ∧
    Attributes.get (GoMap.mk [("name", GoSlice.mk ["a"]), ("Name", GoSlice.mk ["b"])]) "name" =
      GoSlice.mk ["a"] ∧
    "Name" ∉ (GoMap.mk [("name", GoSlice.mk ["Alice"]),
      ("email", GoSlice.mk ["alice@example.com"]), ("group", GoSlice.mk ["users"])]
        : Attributes).keys ∧
    ((fakeAuthService validUser (GoSlice.mk [GoMap.mk [("groupX", "admins")],
        GoMap.mk [("name", "Alice")], GoMap.mk [("name", "Bob")]])).Auth fakeNetURL
        (State.init (fakeRequest "/saml/auth" ""))).w.headerValues ("X-" ++ "Name") =
      ["Alice"] := by
  refine ⟨by decide, by decide, by decide, by decide, by decide, by decide⟩

/-- C9, amended: on the success path of `Auth` (the session exposes attributes
`A`, whose keys are distinct as in every Go map, and `checkACL A` is true) every
attribute value is added as one header line, under the canonical spelling of
`"X-" ++ n`.  The values of the header named `key` are those of the attributes
whose header name has the canonical spelling of `key`, names in the order of the
`range` loop and the values of each name in their order.  So for an entry
`(n, values)` whose header name is shared with no other name of `A`, the header
`"X-" ++ n` holds exactly `values`, in order; a header whose spelling is that of
no name of `A` has no line, and every line stands under the header of a name of
`A`.  The number of lines is the total number of attribute values; the status is
202 and nothing is written to the body. -/
theorem Auth_success_headers (net : NetURL) (s : AuthService) (r : Request) (A : Attributes)
    (hses : s.SP.GetSession r = (Session.withAttributes A, none))
    (hacl : s.checkACL A = true) (hA : A.keysNodup) :
    (∀ key, (s.Auth net (State.init r)).w.headerValues key =
      (A.range.filter (fun e =>
        CanonicalMIMEHeaderKey ("X-" ++ e.1) == CanonicalMIMEHeaderKey key)).flatMap
          (fun e => e.2.range)) ∧
    (∀ n values, (n, values) ∈ A.range →
      (∀ m, m ∈ A.keys →
        CanonicalMIMEHeaderKey ("X-" ++ m) = CanonicalMIMEHeaderKey ("X-" ++ n) → m = n) →
      (s.Auth net (State.init r)).w.headerValues ("X-" ++ n) = values.range) ∧
    (∀ key, (∀ m, m ∈ A.keys →
        CanonicalMIMEHeaderKey ("X-" ++ m) ≠ CanonicalMIMEHeaderKey key) →
      (s.Auth net (State.init r)).w.headerValues key = []) ∧
    (∀ key value, (key, value) ∈ (s.Auth net (State.init r)).w.header →
      ∃ n, n ∈ A.keys ∧ key = CanonicalMIMEHeaderKey ("X-" ++ n)) ∧
    (s.Auth net (State.init r)).w.header.length = (A.range.map (fun e => e.2.len)).sum ∧
    (s.Auth net (State.init r)).w.code = some 202 ∧
    (s.Auth net (State.init r)).w.body = "" := by
  have hlines : Auth.lines A A.range =
      A.range.flatMap (fun e =>
        e.2.range.map (fun v => (CanonicalMIMEHeaderKey ("X-" ++ e.1), v))) :=
    Auth.lines_eq A A.range (fun e he => get_of_mem A hA e.1 e.2 he)
  rw [Auth_ok_eq net s r A hses hacl]
  simp only [ResponseWriter.headerValues, hlines]
  refine ⟨?_, ?_, ?_, ?_, length_of_lines A.range, trivial, trivial⟩
  · intro key
    exact values_of_lines A.range (CanonicalMIMEHeaderKey key)
  · intro n values hm hown
    rw [values_of_lines, filter_canonical_of_mem A.range hA n values hm hown]
    simp
  · intro key hnone
    rw [values_of_lines]
    have hnil : A.range.filter (fun e =>
        CanonicalMIMEHeaderKey ("X-" ++ e.1) == CanonicalMIMEHeaderKey key) = [] := by
      rw [List.filter_eq_nil_iff]
      intro e he hk
      exact hnone e.1 (List.mem_map.mpr ⟨e, he, rfl⟩) (by simpa using hk)
    rw [hnil]
    rfl
  · intro key value hm
    obtain ⟨e, he, hline⟩ := List.mem_flatMap.mp hm
    obtain ⟨v, _, hv⟩ := List.mem_map.mp hline
    cases hv
    exact ⟨e.1, List.mem_map.mpr ⟨e, he, rfl⟩, rfl⟩

/-- Witness of C9 amended: `TestAuthHandlerSuccess`, with a second value for
`email`; no other name of the session is spelt `X-Email` as a header. -/
theorem Auth_success_headers_witness :
    ((fakeAuthService
        (userWith (GoMap.mk [("name", GoSlice.mk ["Alice"]),
          ("email", GoSlice.mk ["alice@example.com", "alice@example.org"])]))
        (GoSlice.mk [GoMap.mk [("name", "Alice")]])).Auth fakeNetURL
        (State.init (fakeRequest "/saml/auth" ""))).w.headerValues ("X-" ++ "email") =
      ["alice@example.com", "alice@example.org"] :=
  (Auth_success_headers fakeNetURL
    (fakeAuthService
      (userWith (GoMap.mk [("name", GoSlice.mk ["Alice"]),
        ("email", GoSlice.mk ["alice@example.com", "alice@example.org"])]))
      (GoSlice.mk [GoMap.mk [("name", "Alice")]]))
    (fakeRequest "/saml/auth" "")
    (GoMap.mk [("name", GoSlice.mk ["Alice"]),
      ("email", GoSlice.mk ["alice@example.com", "alice@example.org"])])
    rfl (by decide) (by decide)).2.1 "email"
      (GoSlice.mk ["alice@example.com", "alice@example.org"]) (by decide) (by decide)

/-! ## The redirect initiator and attribute resolution -/

/-- C11: when the query of the request has no `rd` or an empty one
(`Query().Get("rd")` is the empty string in both cases), `startAuthFlow` answers
400, does not call `HandleStartAuthFlow` and leaves the request, its URL
included, as it was; so `Signin` on a request without session and without `rd`
answers 400. -/
theorem startAuthFlow_missing_rd (net : NetURL) (s : AuthService) (r : Request)
    (hrd : net.queryGet r.URL "rd" = "") :
    (s.startAuthFlow net (State.init r)).w.code = some 400 ∧
    (s.startAuthFlow net (State.init r)).flow = [] ∧
    (s.startAuthFlow net (State.init r)).r = r ∧
    (∀ session, s.SP.GetSession r = (session, some samlsp.ErrNoSession) →
      (s.Signin net (State.init r)).w.code = some 400 ∧
      (s.Signin net (State.init r)).flow = [] ∧
      (s.Signin net (State.init r)).r = r) := by
  have hr : (State.init r).r = r := rfl
  have heq : s.startAuthFlow net (State.init r) = s.httpError net (State.init r) 400 := by
    simp [AuthService.startAuthFlow, hr, hrd, http.StatusBadRequest]
  have h1 : (s.startAuthFlow net (State.init r)).w.code = some 400 := by
    rw [heq]
    exact httpError_code net s _ 400 (init_code r)
  have h2 : (s.startAuthFlow net (State.init r)).flow = [] := by
    rw [heq]
    rfl
  have h3 : (s.startAuthFlow net (State.init r)).r = r := by
    rw [heq]
    rfl
  refine ⟨h1, h2, h3, ?_⟩
  intro session hses
  have hsign := Signin_failed_eq net s r GoMap.nil samlsp.ErrNoSession
    (getAttributes_err s r session _ hses)
  rw [if_pos rfl] at hsign
  rw [hsign]
  exact ⟨h1, h2, h3⟩

/-- Witness of C11: `TestStartAuthFlowWithoutRedirectURL` and
`TestSigninHandlerWithoutSessionMissingRedirect`. -/
theorem startAuthFlow_missing_rd_witness :
    ((fakeAuthService unknownUser GoSlice.nil).startAuthFlow fakeNetURL
        (State.init (fakeRequest "/saml/signin" ""))).w.code = some 400 ∧
    ((fakeAuthService unknownUser GoSlice.nil).Signin fakeNetURL
        (State.init (fakeRequest "/saml/signin" ""))).w.code = some 400 :=
  ⟨(startAuthFlow_missing_rd fakeNetURL (fakeAuthService unknownUser GoSlice.nil)
      (fakeRequest "/saml/signin" "") (by decide)).1,
   ((startAuthFlow_missing_rd fakeNetURL (fakeAuthService unknownUser GoSlice.nil)
      (fakeRequest "/saml/signin" "") (by decide)).2.2.2 Session.nil rfl).1⟩

/-- C13: `getAttributes` succeeds (nil error) if and only if the provider returns,
without error, a session that has `GetAttributes`; it then returns exactly what
`GetAttributes` returns.  When the provider returns an error, `getAttributes`
returns that same error with nil attributes.  When the session, nil or not,
lacks `GetAttributes`, it returns `errNoAttributes` with nil attributes, and
`errNoAttributes` is not `samlsp.ErrNoSession`. -/
theorem getAttributes_spec (s : AuthService) (r : Request) :
    ((s.getAttributes r).2 = none ↔
      ∃ A, s.SP.GetSession r = (Session.withAttributes A, none)) ∧
    (∀ A, s.SP.GetSession r = (Session.withAttributes A, none) →
      s.getAttributes r = (A, none)) ∧
    (∀ session err, s.SP.GetSession r = (session, some err) →
      s.getAttributes r = (GoMap.nil, some err)) ∧
    (∀ session, s.SP.GetSession r = (session, none) →
      (∀ A, session ≠ Session.withAttributes A) →
      s.getAttributes r = (GoMap.nil, some errNoAttributes)) ∧
    errNoAttributes ≠ samlsp.ErrNoSession := by
  refine ⟨?_, getAttributes_ok s r, getAttributes_err s r, ?_, by decide⟩
  · rcases getAttributes_cases s r with ⟨A, hses, hget⟩ | ⟨hno, err, hget, _⟩
    · rw [hget]
      exact ⟨fun _ => ⟨A, hses⟩, fun _ => rfl⟩
    · rw [hget]
      exact ⟨fun h => (by cases h), fun h => absurd h hno⟩
  · intro session hses hno
    cases session with
    | nil => exact getAttributes_nil s r hses
    | withoutAttributes => exact getAttributes_withoutAttributes s r hses
    | withAttributes A => exact absurd rfl (hno A)

/-- Witness of C13: the three cases of `TestGetAttributes`. -/
theorem getAttributes_spec_witness :
    (fakeAuthService validUser GoSlice.nil).getAttributes (fakeRequest "/" "") =
      (GoMap.mk [("name", GoSlice.mk ["Alice"]), ("email", GoSlice.mk ["alice@example.com"]),
                 ("group", GoSlice.mk ["users"])], none) ∧
    (fakeAuthService unknownUser GoSlice.nil).getAttributes (fakeRequest "/" "") =
      (GoMap.nil, some samlsp.ErrNoSession) ∧
    (fakeAuthService noattrUser GoSlice.nil).getAttributes (fakeRequest "/" "") =
      (GoMap.nil, some errNoAttributes) :=
  ⟨(getAttributes_spec _ _).2.1 _ rfl,
   (getAttributes_spec _ _).2.2.1 Session.nil _ rfl,
   (getAttributes_spec _ _).2.2.2.1 Session.withoutAttributes rfl
     (fun _ h => (by cases h))⟩

/-- C18: for a request with a non-empty `rd`, `startAuthFlow` calls
`HandleStartAuthFlow` if and only if `RootURL.Parse(rd)` succeeds; the request it
passes then is the request with its URL replaced by the resolved location, and
the response is what the middleware wrote.  When the resolution fails the status
is 500, not 400, the middleware is not called and the request is left as it
was. -/
theorem startAuthFlow_resolution (net : NetURL) (s : AuthService) (r : Request)
    (hrd : net.queryGet r.URL "rd" ≠ "") :
    ((s.startAuthFlow net (State.init r)).flow ≠ [] ↔
      ∃ cleanURL, net.parse s.RootURL (net.queryGet r.URL "rd") = Except.ok cleanURL) ∧
    (∀ cleanURL, net.parse s.RootURL (net.queryGet r.URL "rd") = Except.ok cleanURL →
      s.startAuthFlow net (State.init r) =
        { w := s.M.HandleStartAuthFlow ResponseWriter.fresh { r with URL := cleanURL },
          r := { r with URL := cleanURL }, log := [],
          flow := [{ r with URL := cleanURL }] }) ∧
    (∀ err, net.parse s.RootURL (net.queryGet r.URL "rd") = Except.error err →
      (s.startAuthFlow net (State.init r)).w.code = some 500 ∧
      (s.startAuthFlow net (State.init r)).w.code ≠ some 400 ∧
      (s.startAuthFlow net (State.init r)).flow = [] ∧
      (s.startAuthFlow net (State.init r)).r = r) := by
  rcases startAuthFlow_cases net s r with ⟨h0, _⟩ | ⟨_, err, hp, heq⟩ | ⟨_, u, hp, heq⟩
  · exact absurd h0 hrd
  · have hcode : (s.startAuthFlow net (State.init r)).w.code = some 500 := by
      rw [heq]
      exact httpError_code net s _ 500 (init_code r)
    have hflow : (s.startAuthFlow net (State.init r)).flow = [] := by
      rw [heq]
      rfl
    refine ⟨⟨fun h => absurd hflow h, ?_⟩, ?_, ?_⟩
    · rintro ⟨u, hu⟩
      rw [hp] at hu
      cases hu
    · intro u hu
      rw [hp] at hu
      cases hu
    · intro _ _
      refine ⟨hcode, ?_, hflow, ?_⟩
      · rw [hcode]
        decide
      · rw [heq]
        rfl
  · refine ⟨⟨fun _ => ⟨u, hp⟩, fun _ => ?_⟩, ?_, ?_⟩
    · rw [heq]
      exact List.cons_ne_nil _ _
    · intro u2 hu2
      rw [hp] at hu2
      cases hu2
      exact heq
    · intro err herr
      rw [hp] at herr
      cases herr

/-- Witness of C18: `TestStartAuthFlowWithWrongRedirectURL` (500) and
`TestStartAuthFlowSuccess` (the middleware is called). -/
theorem startAuthFlow_resolution_witness :
    ((fakeAuthService unknownUser GoSlice.nil).startAuthFlow fakeNetURL
        (State.init (fakeRequest "/saml/signin" "::"))).w.code = some 500 ∧
    ((fakeAuthService unknownUser GoSlice.nil).startAuthFlow fakeNetURL
        (State.init (fakeRequest "/saml/signin" "/"))).flow ≠ [] :=
  ⟨((startAuthFlow_resolution fakeNetURL (fakeAuthService unknownUser GoSlice.nil)
      (fakeRequest "/saml/signin" "::") (by decide)).2.2
      (GoError.other "missing protocol scheme") rfl).1,
   (startAuthFlow_resolution fakeNetURL (fakeAuthService unknownUser GoSlice.nil)
      (fakeRequest "/saml/signin" "/") (by decide)).1.mpr ⟨_, rfl⟩⟩

/-! ## Properties of the decision -/

/-- C14: the order of the policy does not change the decision: when the
requirements of `P2` are those of `P` in another order, `checkACL A` under `P`
equals `checkACL A` under `P2`, for every attribute set `A`. -/
theorem checkACL_policy_order (s : AuthService) (A : Attributes) (P P2 : GoSlice requirement)
    (h : P.range.Perm P2.range) :
    AuthService.checkACL { s with RequiredAttributes := P } A =
      AuthService.checkACL { s with RequiredAttributes := P2 } A := by
  have hlen : P.len = P2.len := by
    rw [GoSlice.slice_len_eq_length, GoSlice.slice_len_eq_length, h.length_eq]
  have hor : aclCheckOR A P = aclCheckOR A P2 := by
    rw [Bool.eq_iff_iff, aclCheckOR_iff, aclCheckOR_iff]
    constructor
    · rintro ⟨q, hq, hok⟩
      exact ⟨q, h.subset hq, hok⟩
    · rintro ⟨q, hq, hok⟩
      exact ⟨q, h.symm.subset hq, hok⟩
  rw [checkACL_eq, checkACL_eq]
  simp only [hlen, hor]

/-- Witness of C14: the policy of `TestAuthHandlerSuccess` and the same three
requirements with the matching one moved to the end. -/
theorem checkACL_policy_order_witness :
    AuthService.checkACL
        (fakeAuthService validUser (GoSlice.mk [GoMap.mk [("groupX", "admins")],
          GoMap.mk [("name", "Alice")], GoMap.mk [("name", "Bob")]]))
        (GoMap.mk [("name", GoSlice.mk ["Alice"])]) =
      AuthService.checkACL
        (fakeAuthService validUser (GoSlice.mk [GoMap.mk [("groupX", "admins")],
          GoMap.mk [("name", "Bob")], GoMap.mk [("name", "Alice")]]))
        (GoMap.mk [("name", GoSlice.mk ["Alice"])]) :=
  checkACL_policy_order (fakeAuthService validUser GoSlice.nil)
    (GoMap.mk [("name", GoSlice.mk ["Alice"])])
    (GoSlice.mk [GoMap.mk [("groupX", "admins")], GoMap.mk [("name", "Alice")],
      GoMap.mk [("name", "Bob")]])
    (GoSlice.mk [GoMap.mk [("groupX", "admins")], GoMap.mk [("name", "Bob")],
      GoMap.mk [("name", "Alice")]])
    ((List.Perm.swap _ _ _).cons _)

/-- C15: matching is exact and covers every value: for every name `n`, values
`vs` and required value `w`, `checkACL` of the attribute set `{n: vs}` under the
policy `[{n: w}]` is true if and only if the element at some position of `vs`
equals `w` as a string.  A value that differs from `w` in letter case, or that
has `w` as a prefix or as a substring only, does not match
(`Alice` against `alice`, `Ali` and `lic`). -/
theorem checkACL_exact_match (s : AuthService) (n : String) (vs : GoSlice String) (w : String) :
    (AuthService.checkACL { s with RequiredAttributes := GoSlice.mk [GoMap.mk [(n, w)]] }
        (GoMap.mk [(n, vs)]) = true ↔ ∃ (i : Nat), vs.range[i]? = some w) ∧
    AuthService.checkACL { s with RequiredAttributes := GoSlice.mk [GoMap.mk [("name", "alice")]] }
        (GoMap.mk [("name", GoSlice.mk ["Alice"])]) = false ∧
    AuthService.checkACL { s with RequiredAttributes := GoSlice.mk [GoMap.mk [("name", "Ali")]] }
        (GoMap.mk [("name", GoSlice.mk ["Alice"])]) = false ∧
    AuthService.checkACL { s with RequiredAttributes := GoSlice.mk [GoMap.mk [("name", "lic")]] }
        (GoMap.mk [("name", GoSlice.mk ["Alice"])]) = false ∧
    AuthService.checkACL
        { s with RequiredAttributes := GoSlice.mk [GoMap.mk [("email", "a@y.com")]] }
        (GoMap.mk [("email", GoSlice.mk ["a@x.com", "a@y.com"])]) = true := by
  have key : ∀ (n : String) (vs : GoSlice String) (w : String),
      AuthService.checkACL { s with RequiredAttributes := GoSlice.mk [GoMap.mk [(n, w)]] }
        (GoMap.mk [(n, vs)]) = true ↔ w ∈ vs.range := by
    intro n vs w
    rw [checkACL_eq]
    simp [GoSlice.len, GoMap.len, aclCheckOR, aclCheckOR.loop, GoSlice.range, aclCheckAND,
      aclCheckAND.loop, GoMap.range, GoMap.index, List.lookup, aclCheckAND.scan_iff]
  refine ⟨?_, ?_, ?_, ?_, ?_⟩
  · rw [key]
    exact List.mem_iff_getElem?
  · rw [← Bool.not_eq_true, key]
    decide
  · rw [← Bool.not_eq_true, key]
    decide
  · rw [← Bool.not_eq_true, key]
    decide
  · rw [key]
    decide

/-! ## Sessions without attributes, and denied responses -/

/-- C12, as stated, fails: for a session without `GetAttributes` (`noattrUser`)
`Signin` under a non-empty policy answers 500, not 403, and `Auth` under the
empty policy answers 401. -/
theorem session_without_capability_counterexample :
    ((fakeAuthService noattrUser (GoSlice.mk [GoMap.mk [("group", "admins")]])).Signin
        fakeNetURL (State.init (fakeRequest "/saml/signin" "/"))).w.code = some 500 ∧
    ((fakeAuthService noattrUser GoSlice.nil).Auth
        fakeNetURL (State.init (fakeRequest "/saml/auth" ""))).w.code = some 401 := by
  constructor <;> decide

/-- C12, amended: a session that is present but lacks `GetAttributes` is a failed
attribute lookup whatever the policy, empty or not: `Auth` answers 401 and
`Signin` answers 500 without calling `HandleStartAuthFlow`.  What is treated as
a policy violation unless the policy is empty is a session that exposes an
attribute set without entries: under a non-empty policy `Auth` answers 401 and
`Signin` 403, under an empty policy `Auth` answers 202. -/
theorem session_without_capability (net : NetURL) (s : AuthService) (r : Request) :
    (∀ session, s.SP.GetSession r = (session, none) →
      (∀ A, session ≠ Session.withAttributes A) →
      (s.Auth net (State.init r)).w.code = some 401 ∧
      (s.Signin net (State.init r)).w.code = some 500 ∧
      (s.Signin net (State.init r)).flow = []) ∧
    (∀ A, s.SP.GetSession r = (Session.withAttributes A, none) → A.len = 0 →
      (s.RequiredAttributes.len ≠ 0 →
        (s.Auth net (State.init r)).w.code = some 401 ∧
        (s.Signin net (State.init r)).w.code = some 403) ∧
      (s.RequiredAttributes.len = 0 →
        (s.Auth net (State.init r)).w.code = some 202)) := by
  constructor
  · intro session hses hno
    have hget : s.getAttributes r = (GoMap.nil, some errNoAttributes) := by
      cases session with
      | nil => exact getAttributes_nil s r hses
      | withoutAttributes => exact getAttributes_withoutAttributes s r hses
      | withAttributes A => exact absurd rfl (hno A)
    have hsign := Signin_failed_eq net s r _ _ hget
    rw [if_neg (by decide)] at hsign
    refine ⟨?_, ?_, ?_⟩
    · rw [Auth_failed_eq net s r _ _ hget]
      exact httpError_code net s _ 401 (init_code r)
    · rw [hsign]
      exact httpError_code net s _ 500 (init_code r)
    · rw [hsign]
      rfl
  · intro A hses hlen
    constructor
    · intro hP
      have hacl : s.checkACL A = false := by
        rw [checkACL_eq, if_neg hP, if_pos hlen]
      constructor
      · rw [Auth_denied_eq net s r A hses hacl]
        exact httpError_code net s _ 401 (init_code r)
      · rw [Signin_ok_eq net s r A hses, hacl]
        exact httpError_code net s _ _ (init_code r)
    · intro hP
      have hacl : s.checkACL A = true := by
        rw [checkACL_eq, if_pos hP]
      rw [Auth_ok_eq net s r A hses hacl]

/-- Witness of C12 amended: `noattrUser` under the empty policy, and a session
with the empty attribute map under a non-empty policy. -/
theorem session_without_capability_witness :
    ((fakeAuthService noattrUser GoSlice.nil).Signin fakeNetURL
        (State.init (fakeRequest "/saml/signin" "/"))).w.code = some 500 ∧
    ((fakeAuthService (userWith (GoMap.mk [])) (GoSlice.mk [GoMap.mk [("group", "admins")]])).Signin
        fakeNetURL (State.init (fakeRequest "/saml/signin" "/"))).w.code = some 403 :=
  ⟨((session_without_capability _ _ _).1 Session.withoutAttributes rfl
      (fun _ h => (by cases h))).2.1,
   (((session_without_capability _ _ _).2 (GoMap.mk []) rfl rfl).1 (by decide)).2⟩

theorem canonical_content_type : CanonicalMIMEHeaderKey "Content-Type" = "Content-Type" := by
  decide

theorem canonical_nosniff_name :
    CanonicalMIMEHeaderKey "X-Content-Type-Options" = "X-Content-Type-Options" := by
  decide

theorem canonical_x_head (n : String) :
    (CanonicalMIMEHeaderKey ("X-" ++ n)).data.head? = some 'X' := by
  have hd : ("X-" ++ n).data = 'X' :: '-' :: n.data := by
    simp [String.data_append]
  unfold CanonicalMIMEHeaderKey
  split
  · rw [hd]
    simp [canonicalMIMEHeaderKey]
  · rw [hd]
    rfl

theorem canonical_x_ne_content_type (n : String) :
    CanonicalMIMEHeaderKey ("X-" ++ n) ≠ "Content-Type" := by
  intro h
  have h2 := canonical_x_head n
  rw [h] at h2
  revert h2
  decide

theorem http_Error_fresh (text : String) (code : Nat) :
    http.Error ResponseWriter.fresh text code =
      { header := [("Content-Type", "text/plain; charset=utf-8"),
                   ("X-Content-Type-Options", "nosniff")],
        code := some code, body := text ++ "\n" } := by
  simp [http.Error, ResponseWriter.Write, ResponseWriter.WriteHeader, ResponseWriter.headerSet,
    ResponseWriter.fresh, canonical_content_type, canonical_nosniff_name]

theorem Auth_of_code_denied (net : NetURL) (s : AuthService) (r : Request)
    (hdeny : (s.Auth net (State.init r)).w.code = some 401) :
    s.Auth net (State.init r) = s.httpError net (State.init r) 401 := by
  rcases getAttributes_cases s r with ⟨A, hses, _⟩ | ⟨_, err, hget, _⟩
  · by_cases hacl : s.checkACL A = true
    · rw [Auth_ok_eq net s r A hses hacl] at hdeny
      cases hdeny
    · exact Auth_denied_eq net s r A hses (by simpa using hacl)
  · exact Auth_failed_eq net s r _ err hget

/-- C16: whenever `Auth` denies (status 401, for whatever reason) it sets no
header of its own: the response is the one `http.Error` writes on the response
writer as the server handed it over, with the two header lines of `http.Error`,
`Content-Type: text/plain; charset=utf-8` and `X-Content-Type-Options: nosniff`.
It is the same for every denial, whatever the session and its attributes, also
when the attributes were resolved before the policy check failed: no line comes
from an attribute.  For every attribute name `n` the header `"X-" ++ n` has no
value, unless that name is spelt as the constant header `X-Content-Type-Options`
of `http.Error` itself; every header other than the two of `http.Error` has no
value. -/
theorem Auth_denied_headers (net : NetURL) (s : AuthService) (r : Request)
    (hdeny : (s.Auth net (State.init r)).w.code = some 401) :
    (s.Auth net (State.init r)).w = http.Error ResponseWriter.fresh "Unauthorized" 401 ∧
    (s.Auth net (State.init r)).w.header =
      [("Content-Type", "text/plain; charset=utf-8"), ("X-Content-Type-Options", "nosniff")] ∧
    (∀ n, CanonicalMIMEHeaderKey ("X-" ++ n) ≠ "X-Content-Type-Options" →
      (s.Auth net (State.init r)).w.headerValues ("X-" ++ n) = []) ∧
    (∀ key, CanonicalMIMEHeaderKey key ≠ "Content-Type" →
      CanonicalMIMEHeaderKey key ≠ "X-Content-Type-Options" →
      (s.Auth net (State.init r)).w.headerValues key = []) ∧
    (∀ (s2 : AuthService) (r2 : Request),
      (s2.Auth net (State.init r2)).w.code = some 401 →
      (s2.Auth net (State.init r2)).w = (s.Auth net (State.init r)).w) := by
  have hconst : ∀ (s1 : AuthService) (r1 : Request),
      (s1.Auth net (State.init r1)).w.code = some 401 →
      (s1.Auth net (State.init r1)).w = http.Error ResponseWriter.fresh "Unauthorized" 401 := by
    intro s1 r1 h1
    rw [Auth_of_code_denied net s1 r1 h1]
    rfl
  have hw := hconst s r hdeny
  have hkey : ∀ key, CanonicalMIMEHeaderKey key ≠ "Content-Type" →
      CanonicalMIMEHeaderKey key ≠ "X-Content-Type-Options" →
      (s.Auth net (State.init r)).w.headerValues key = [] := by
    intro key h1 h2
    rw [hw, http_Error_fresh]
    simp [ResponseWriter.headerValues, Ne.symm h1, Ne.symm h2]
  refine ⟨hw, ?_, ?_, hkey, ?_⟩
  · rw [hw, http_Error_fresh]
  · intro n hn
    exact hkey ("X-" ++ n) (canonical_x_ne_content_type n) hn
  · intro s2 r2 h2
    rw [hw, hconst s2 r2 h2]

/-- Witness of C16: `TestAuthHandlerNoPermissions`, where the attributes were
resolved before the policy check failed: no header `X-Name` for `name`. -/
theorem Auth_denied_headers_witness :
    ((fakeAuthService validUser (GoSlice.mk [GoMap.mk [("group", "admins")]])).Auth fakeNetURL
        (State.init (fakeRequest "/saml/auth" ""))).w.headerValues ("X-" ++ "name") = [] :=
  (Auth_denied_headers fakeNetURL
    (fakeAuthService validUser (GoSlice.mk [GoMap.mk [("group", "admins")]]))
    (fakeRequest "/saml/auth" "") (by decide)).2.2.1 "name" (by decide)

/-! ## The body of `Whoami` -/

theorem join_cons_eq (a : String) (l : List String) :
    String.join (a :: l) = a ++ String.join l := by
  apply String.ext
  simp [String.data_join, String.data_append]

theorem join_append_eq (l1 l2 : List String) :
    String.join (l1 ++ l2) = String.join l1 ++ String.join l2 := by
  apply String.ext
  simp [String.data_join, String.data_append]

theorem Whoami.writeValues_eq (name : String) (values : List String) (w : ResponseWriter)
    (c : Nat) (h : w.code = some c) :
    AuthService.Whoami.writeValues name values w =
      { w with body := w.body ++ String.join (values.map (fun v => Whoami.line name v)) } := by
  induction values generalizing w with
  | nil => simp [AuthService.Whoami.writeValues, String.join]
  | cons v rest ih =>
    have hw : (w.Write (name ++ ": " ++ v ++ "\n")).code = some c := by
      simp [ResponseWriter.Write, ResponseWriter.WriteHeader, h]
    unfold AuthService.Whoami.writeValues
    rw [ih _ hw]
    simp [ResponseWriter.Write, ResponseWriter.WriteHeader, h, join_cons_eq, Whoami.line,
      String.append_assoc]

theorem Whoami.writeLines_eq (attributes : Attributes)
    (entries : List (String × GoSlice String)) (w : ResponseWriter) (c : Nat)
    (h : w.code = some c) :
    AuthService.Whoami.writeLines attributes entries w =
      { w with body := w.body ++
          String.join ((Whoami.pairs attributes entries).map (fun p => Whoami.line p.1 p.2)) } := by
  induction entries generalizing w with
  | nil => simp [AuthService.Whoami.writeLines, Whoami.pairs, String.join]
  | cons e rest ih =>
    obtain ⟨name, vs⟩ := e
    unfold AuthService.Whoami.writeLines
    rw [ih _ (Whoami.writeValues_code name _ w c h), Whoami.writeValues_eq name _ w c h]
    simp [Whoami.pairs, List.flatMap_cons, join_append_eq, String.append_assoc,
      Function.comp_def]

theorem Whoami.pairs_eq (A : Attributes) (entries : List (String × GoSlice String))
    (h : ∀ e, e ∈ entries → A.get e.1 = e.2) :
    Whoami.pairs A entries = entries.flatMap (fun e => e.2.range.map (fun v => (e.1, v))) := by
  induction entries with
  | nil => rfl
  | cons e rest ih =>
    have hrest := ih (fun e2 h2 => h e2 (List.mem_cons_of_mem _ h2))
    unfold Whoami.pairs at hrest ⊢
    simp only [List.flatMap_cons, hrest, h e (List.mem_cons_self _ _)]

theorem values_of_pair (k n : String) (values : List String) :
    ((values.map (fun v => (k, v))).filter (fun p => p.1 == n)).map Prod.snd =
      if k = n then values else [] := by
  by_cases h : k = n
  · subst h
    simp [List.filter_map, Function.comp_def]
  · simp [List.filter_map, Function.comp_def, h]

theorem values_of_pairs (entries : List (String × GoSlice String)) (n : String) :
    ((entries.flatMap (fun e => e.2.range.map (fun v => (e.1, v)))).filter
        (fun p => p.1 == n)).map Prod.snd =
      (entries.filter (fun e => e.1 == n)).flatMap (fun e => e.2.range) := by
  induction entries with
  | nil => rfl
  | cons e rest ih =>
    simp only [List.flatMap_cons, List.filter_append, List.map_append, ih, values_of_pair]
    by_cases h : e.1 = n
    · simp [List.filter_cons, h]
    · simp [List.filter_cons, h]

theorem length_of_pairs (entries : List (String × GoSlice String)) :
    (entries.flatMap (fun e => e.2.range.map (fun v => (e.1, v)))).length =
      (entries.map (fun e => e.2.len)).sum := by
  induction entries with
  | nil => rfl
  | cons e rest ih =>
    simp [List.flatMap_cons, ih, GoSlice.slice_len_eq_length]

theorem textLines_line (cur l rest : List Char) (h : '\n' ∉ l) :
    textLines cur (l ++ '\n' :: rest) = (cur.reverse ++ l) :: textLines [] rest := by
  induction l generalizing cur with
  | nil => simp [textLines]
  | cons c l ih =>
    have hc : ¬ c = '\n' := fun e => h (by rw [e]; exact List.mem_cons_self _ _)
    have hl : '\n' ∉ l := fun e => h (List.mem_cons_of_mem _ e)
    simp [textLines, hc, ih (c :: cur) hl]

theorem textLines_lines (ls : List (List Char)) (h : ∀ l, l ∈ ls → '\n' ∉ l) :
    textLines [] (ls.flatMap (fun l => l ++ ['\n'])) = ls := by
  induction ls with
  | nil => simp [textLines]
  | cons l rest ih =>
    have hrest := ih (fun l2 h2 => h l2 (List.mem_cons_of_mem _ h2))
    rw [List.flatMap_cons, List.append_assoc, List.singleton_append,
      textLines_line [] l _ (h l (List.mem_cons_self _ _)), hrest]
    simp

theorem join_lines_data (pairs : List (String × String)) :
    (String.join (pairs.map (fun p => p.1 ++ ": " ++ p.2 ++ "\n"))).data =
      (pairs.map (fun p => (p.1 ++ ": " ++ p.2).data)).flatMap (fun l => l ++ ['\n']) := by
  induction pairs with
  | nil => simp [String.join]
  | cons p rest ih =>
    rw [List.map_cons, join_cons_eq, String.data_append, ih]
    simp [String.data_append]

/-- C17, as stated, fails when a value holds a newline.  For the attributes
`{"note": ["line1\nline2"]}` the body has two lines for one value; and for
`{"a": ["x\nb: y"]}` the body is the one of `{"a": ["x"], "b": ["y"]}`: it holds
the line `b: y` although `b` is no name of the attribute set. -/
theorem Whoami_body_counterexample :
    ((fakeAuthService (userWith (GoMap.mk [("note", GoSlice.mk ["line1\nline2"])]))
        GoSlice.nil).Whoami fakeNetURL
        (State.init (fakeRequest "/saml/whoami" ""))).w.body = "note: line1\nline2\n" ∧
    textLines [] ((fakeAuthService (userWith (GoMap.mk [("note", GoSlice.mk ["line1\nline2"])]))
        GoSlice.nil).Whoami fakeNetURL
        (State.init (fakeRequest "/saml/whoami" ""))).w.body.data =
      ["note: line1".data, "line2".data] ∧
    ((GoMap.mk [("note", GoSlice.mk ["line1\nline2"])] : Attributes).range.map
      (fun e => e.2.len)).sum = 1 ∧
    ((fakeAuthService (userWith (GoMap.mk [("a", GoSlice.mk ["x\nb: y"])]))
        GoSlice.nil).Whoami fakeNetURL (State.init (fakeRequest "/saml/whoami" ""))).w.body =
      ((fakeAuthService
          (userWith (GoMap.mk [("a", GoSlice.mk ["x"]), ("b", GoSlice.mk ["y"])]))
        GoSlice.nil).Whoami fakeNetURL (State.init (fakeRequest "/saml/whoami" ""))).w.body := by
  refine ⟨by decide, by decide, by decide, by decide⟩

/-- C17, amended: on success (the session exposes attributes `A`, whose keys are
distinct as in every Go map) the body of `Whoami` is the concatenation, in the
order of writing, of the text `name: value` followed by a newline, one for each
written pair and nothing else.  The written pairs are as many as the attribute
values in total; for every entry `(n, values)` of `A` the pairs of name `n`
carry exactly `values`, in the order of `values`; every written pair is a value
of `A`.  When no name and no value of `A` holds a newline, the lines of the body
are exactly these texts, one line per attribute value, and their number is the
total number of attribute values.  The order across names is that of the `range`
loop.  The status is 200. -/
theorem Whoami_body (net : NetURL) (s : AuthService) (r : Request) (A : Attributes)
    (hses : s.SP.GetSession r = (Session.withAttributes A, none)) (hA : A.keysNodup) :
    (s.Whoami net (State.init r)).w.body =
      String.join ((Whoami.pairs A A.range).map (fun p => p.1 ++ ": " ++ p.2 ++ "\n")) ∧
    (Whoami.pairs A A.range).length = (A.range.map (fun e => e.2.len)).sum ∧
    (∀ n values, (n, values) ∈ A.range →
      ((Whoami.pairs A A.range).filter (fun p => p.1 == n)).map Prod.snd = values.range) ∧
    (∀ n values v, (n, values) ∈ A.range → v ∈ values.range →
      (n, v) ∈ Whoami.pairs A A.range) ∧
    (∀ n v, (n, v) ∈ Whoami.pairs A A.range →
      ∃ values, (n, values) ∈ A.range ∧ v ∈ values.range) ∧
    ((∀ e, e ∈ A.range → '\n' ∉ e.1.data ∧ ∀ v, v ∈ e.2.range → '\n' ∉ v.data) →
      textLines [] (s.Whoami net (State.init r)).w.body.data =
        (Whoami.pairs A A.range).map (fun p => (p.1 ++ ": " ++ p.2).data) ∧
      (textLines [] (s.Whoami net (State.init r)).w.body.data).length =
        (A.range.map (fun e => e.2.len)).sum) ∧
    (s.Whoami net (State.init r)).w.code = some 200 := by
  have hpairs : Whoami.pairs A A.range =
      A.range.flatMap (fun e => e.2.range.map (fun v => (e.1, v))) :=
    Whoami.pairs_eq A A.range (fun e he => get_of_mem A hA e.1 e.2 he)
  have hr : (State.init r).r = r := rfl
  have hbody : (s.Whoami net (State.init r)).w.body =
      String.join ((Whoami.pairs A A.range).map (fun p => p.1 ++ ": " ++ p.2 ++ "\n")) := by
    simp only [AuthService.Whoami, hr, getAttributes_ok s r A hses]
    rw [Whoami.writeLines_eq A A.range _ 200
      (by simp [AuthService.httpStatus, ResponseWriter.WriteHeader, State.init,
        ResponseWriter.fresh, http.StatusOK])]
    simp [AuthService.httpStatus, ResponseWriter.WriteHeader, State.init,
      ResponseWriter.fresh, Whoami.line]
  have hlen : (Whoami.pairs A A.range).length = (A.range.map (fun e => e.2.len)).sum := by
    rw [hpairs]
    exact length_of_pairs A.range
  have hfrom : ∀ n v, (n, v) ∈ Whoami.pairs A A.range →
      ∃ values, (n, values) ∈ A.range ∧ v ∈ values.range := by
    intro n v hm
    rw [hpairs] at hm
    obtain ⟨e, he, hline⟩ := List.mem_flatMap.mp hm
    obtain ⟨v2, hv2, heq⟩ := List.mem_map.mp hline
    cases heq
    exact ⟨e.2, he, hv2⟩
  refine ⟨hbody, hlen, ?_, ?_, hfrom, ?_, Whoami_ok_code net s r A hses⟩
  · intro n values hm
    rw [hpairs, values_of_pairs, filter_key_of_mem A.range hA n values hm]
    simp
  · intro n values v hm hv
    rw [hpairs]
    exact List.mem_flatMap.mpr ⟨(n, values), hm, List.mem_map.mpr ⟨v, hv, rfl⟩⟩
  · intro hnl
    have hlines : textLines [] (s.Whoami net (State.init r)).w.body.data =
        (Whoami.pairs A A.range).map (fun p => (p.1 ++ ": " ++ p.2).data) := by
      rw [hbody, join_lines_data]
      apply textLines_lines
      intro l hl
      obtain ⟨p, hp, hpl⟩ := List.mem_map.mp hl
      obtain ⟨values, hmem, hv⟩ := hfrom p.1 p.2 hp
      have h1 := (hnl (p.1, values) hmem).1
      have h2 := (hnl (p.1, values) hmem).2 p.2 hv
      rw [← hpl]
      simp only [String.data_append, List.mem_append, not_or]
      exact ⟨⟨h1, by decide⟩, h2⟩
    refine ⟨hlines, ?_⟩
    rw [hlines, List.length_map, hlen]

/-- Witness of C17 amended: `TestWhoamiHandlerWithAttributes`, three lines for
three values. -/
theorem Whoami_body_witness :
    ((fakeAuthService validUser GoSlice.nil).Whoami fakeNetURL
        (State.init (fakeRequest "/saml/whoami" ""))).w.body =
      "name: Alice\nemail: alice@example.com\ngroup: users\n" ∧
    (textLines [] ((fakeAuthService validUser GoSlice.nil).Whoami fakeNetURL
        (State.init (fakeRequest "/saml/whoami" ""))).w.body.data).length = 3 :=
  ⟨(Whoami_body fakeNetURL (fakeAuthService validUser GoSlice.nil)
    (fakeRequest "/saml/whoami" "")
    (GoMap.mk [("name", GoSlice.mk ["Alice"]), ("email", GoSlice.mk ["alice@example.com"]),
               ("group", GoSlice.mk ["users"])]) rfl (by decide)).1.trans (by decide),
   ((Whoami_body fakeNetURL (fakeAuthService validUser GoSlice.nil)
    (fakeRequest "/saml/whoami" "")
    (GoMap.mk [("name", GoSlice.mk ["Alice"]), ("email", GoSlice.mk ["alice@example.com"]),
               ("group", GoSlice.mk ["users"])]) rfl (by decide)).2.2.2.2.2.1
      (by decide)).2⟩

/-! ## The audit record -/

theorem httpError_eq (net : NetURL) (s : AuthService) (x : State) (code : Nat) :
    s.httpError net x code =
      { w := http.Error x.w (http.StatusText code) code, r := x.r,
        log := x.log ++ [auditRecord net x.r code], flow := x.flow } := rfl

theorem httpError_init_log (net : NetURL) (s : AuthService) (r : Request) (code : Nat) :
    (s.httpError net (State.init r) code).log = [auditRecord net r code] := rfl

/-- C19: `httpError` hands one record to the logger, with the method, URL, user
agent and remote address of the request and the status it is given, and writes
the response that `http.Error` alone writes: the record changes no status.
From the state in which a handler is called, each of `Auth`, `Whoami`,
`startAuthFlow` and `Signin` ends in one of two ways.  Either it wrote a status
`c` of its own among 400, 401, 403 and 500, and the log holds exactly one
record, that of the request with `statusCode = c`; or the log is empty, and then
`Auth` wrote 202, `Whoami` wrote 200, and `startAuthFlow` and `Signin` called
`HandleStartAuthFlow`. -/
theorem audit_record_complete (net : NetURL) (s : AuthService) (r : Request) :
    (∀ (x : State) (code : Nat),
      (s.httpError net x code).log = x.log ++ [auditRecord net x.r code] ∧
      (s.httpError net x code).w = http.Error x.w (http.StatusText code) code ∧
      (auditRecord net x.r code).requestMethod = x.r.Method ∧
      (auditRecord net x.r code).requestUrl = net.urlString x.r.URL ∧
      (auditRecord net x.r code).userAgent = x.r.UserAgent ∧
      (auditRecord net x.r code).remoteIp = x.r.RemoteAddr ∧
      (auditRecord net x.r code).statusCode = code) ∧
    (((s.Auth net (State.init r)).w.code = some 202 ∧ (s.Auth net (State.init r)).log = []) ∨
      ((s.Auth net (State.init r)).w.code = some 401 ∧
        (s.Auth net (State.init r)).log = [auditRecord net r 401])) ∧
    (((s.Whoami net (State.init r)).w.code = some 200 ∧
        (s.Whoami net (State.init r)).log = []) ∨
      ((s.Whoami net (State.init r)).w.code = some 401 ∧
        (s.Whoami net (State.init r)).log = [auditRecord net r 401])) ∧
    (((s.startAuthFlow net (State.init r)).flow ≠ [] ∧
        (s.startAuthFlow net (State.init r)).log = []) ∨
      ((s.startAuthFlow net (State.init r)).flow = [] ∧
        ∃ c, (c = 400 ∨ c = 500) ∧ (s.startAuthFlow net (State.init r)).w.code = some c ∧
          (s.startAuthFlow net (State.init r)).log = [auditRecord net r c])) ∧
    (((s.Signin net (State.init r)).flow ≠ [] ∧ (s.Signin net (State.init r)).log = []) ∨
      ((s.Signin net (State.init r)).flow = [] ∧
        ∃ c, (c = 400 ∨ c = 403 ∨ c = 500) ∧ (s.Signin net (State.init r)).w.code = some c ∧
          (s.Signin net (State.init r)).log = [auditRecord net r c])) := by
  have herr : ∀ (y : State) (c : Nat), y = s.httpError net (State.init r) c →
      y.flow = [] ∧ y.w.code = some c ∧ y.log = [auditRecord net r c] := by
    intro y c hy
    subst hy
    exact ⟨rfl, httpError_code net s _ c (init_code r), rfl⟩
  have hflow : ((s.startAuthFlow net (State.init r)).flow ≠ [] ∧
        (s.startAuthFlow net (State.init r)).log = []) ∨
      ((s.startAuthFlow net (State.init r)).flow = [] ∧
        ∃ c, (c = 400 ∨ c = 500) ∧ (s.startAuthFlow net (State.init r)).w.code = some c ∧
          (s.startAuthFlow net (State.init r)).log = [auditRecord net r c]) := by
    rcases startAuthFlow_cases net s r with ⟨_, h⟩ | ⟨_, _, _, h⟩ | ⟨_, u, _, h⟩
    · exact Or.inr ⟨(herr _ 400 h).1, 400, Or.inl rfl, (herr _ 400 h).2⟩
    · exact Or.inr ⟨(herr _ 500 h).1, 500, Or.inr rfl, (herr _ 500 h).2⟩
    · left
      rw [h]
      exact ⟨List.cons_ne_nil _ _, rfl⟩
  refine ⟨fun x code => ⟨rfl, rfl, rfl, rfl, rfl, rfl, rfl⟩, ?_, ?_, hflow, ?_⟩
  · rcases getAttributes_cases s r with ⟨A, hses, _⟩ | ⟨_, err, hget, _⟩
    · by_cases hacl : s.checkACL A = true
      · left
        rw [Auth_ok_eq net s r A hses hacl]
        exact ⟨rfl, rfl⟩
      · right
        exact (herr _ 401 (Auth_denied_eq net s r A hses (by simpa using hacl))).2
    · right
      exact (herr _ 401 (Auth_failed_eq net s r _ err hget)).2
  · rcases getAttributes_cases s r with ⟨A, hses, _⟩ | ⟨_, err, hget, _⟩
    · left
      refine ⟨Whoami_ok_code net s r A hses, ?_⟩
      have hr : (State.init r).r = r := rfl
      simp only [AuthService.Whoami, hr, getAttributes_ok s r A hses]
      rfl
    · right
      exact (herr _ 401 (Whoami_failed_eq net s r _ err hget)).2
  · rcases getAttributes_cases s r with ⟨A, hses, _⟩ | ⟨_, err, hget, _⟩
    · have heq := Signin_ok_eq net s r A hses
      by_cases hacl : s.checkACL A = true
      · rw [if_pos hacl] at heq
        exact Or.inr ⟨(herr _ 500 heq).1, 500, Or.inr (Or.inr rfl), (herr _ 500 heq).2⟩
      · rw [if_neg hacl] at heq
        exact Or.inr ⟨(herr _ 403 heq).1, 403, Or.inr (Or.inl rfl), (herr _ 403 heq).2⟩
    · have heq := Signin_failed_eq net s r _ err hget
      by_cases hno : err = samlsp.ErrNoSession
      · rw [if_pos hno] at heq
        rw [heq]
        rcases hflow with h | ⟨h0, c, hc, h1⟩
        · exact Or.inl h
        · refine Or.inr ⟨h0, c, ?_, h1⟩
          rcases hc with hc | hc
          · exact Or.inl hc
          · exact Or.inr (Or.inr hc)
      · rw [if_neg hno] at heq
        exact Or.inr ⟨(herr _ 500 heq).1, 500, Or.inr (Or.inr rfl), (herr _ 500 heq).2⟩

/-! ## The return target -/

/-- C20, as stated, fails: with the root `http://example.com`, the references
`http://evil.example/x` and `//evil.example/x` resolve without error as Go
documents for `Parse`, and the location `startAuthFlow` hands to
`HandleStartAuthFlow` has the host `evil.example`, not the host of the root. -/
theorem startAuthFlow_target_counterexample :
    (fakeAuthService unknownUser GoSlice.nil).RootURL.Host = "example.com" ∧
    ((fakeAuthService unknownUser GoSlice.nil).startAuthFlow rfcNetURL
        (State.init (fakeRequest "/saml/signin" "http://evil.example/x"))).flow.map
          (fun q => (q.URL.Scheme, q.URL.Host, q.URL.Path)) = [("http", "evil.example", "/x")] ∧
    ((fakeAuthService unknownUser GoSlice.nil).startAuthFlow rfcNetURL
        (State.init (fakeRequest "/saml/signin" "//evil.example/x"))).flow.map
          (fun q => (q.URL.Scheme, q.URL.Host, q.URL.Path)) = [("http", "evil.example", "/x")] := by
  refine ⟨by decide, by decide, by decide⟩

theorem rfc_parse_ok (base : URL) (rd : String) (ref : URL)
    (h : parseReference rd = Except.ok ref) :
    rfcNetURL.parse base rd = Except.ok (resolveReference base ref) := by
  simp [rfcNetURL, h]

theorem parseReference_path_only (rd : String) (rest : List Char)
    (h : rd.data = '/' :: rest) (h2 : rest.head? ≠ some '/') :
    ∃ ref, parseReference rd = Except.ok ref ∧ ref.Scheme = "" ∧ ref.Host = "" := by
  have hs : getScheme [] ('/' :: rest) = Except.ok ([], '/' :: rest) := by
    simp [getScheme]
  unfold parseReference
  rw [h, hs]
  cases rest with
  | nil => exact ⟨_, rfl, rfl, rfl⟩
  | cons c t =>
    have hc : c ≠ '/' := fun e => h2 (by rw [e]; rfl)
    simp only []
    split
    · rename_i heq
      cases heq
      exact absurd rfl hc
    · exact ⟨_, rfl, rfl, rfl⟩

theorem takeWhile_host (host path : List Char) (h : ∀ c, c ∈ host → c ≠ '/') :
    (host ++ '/' :: path).takeWhile (fun c => c != '/') = host ∧
    (host ++ '/' :: path).dropWhile (fun c => c != '/') = '/' :: path := by
  induction host with
  | nil => simp
  | cons c rest ih =>
    have hc : (c != '/') = true := by simpa using h c (List.mem_cons_self _ _)
    have hrest := ih (fun d hd => h d (List.mem_cons_of_mem _ hd))
    simp [List.takeWhile, List.dropWhile, hc, hrest.1, hrest.2]

theorem plain_ne_slash (c : Char) (h : c.isAlphanum = true ∨ c = '.' ∨ c = '-') : c ≠ '/' := by
  intro e
  rw [e] at h
  revert h
  decide

theorem parseReference_authority (rd : String) (host path : List Char)
    (h : rd.data = '/' :: '/' :: (host ++ '/' :: path))
    (hplain : ∀ c, c ∈ host → c.isAlphanum = true ∨ c = '.' ∨ c = '-') :
    parseReference rd =
      Except.ok { Scheme := "", Host := String.mk host, Path := String.mk ('/' :: path),
                  RawQuery := "", Fragment := "" } := by
  have hs : getScheme [] ('/' :: '/' :: (host ++ '/' :: path)) =
      Except.ok ([], '/' :: '/' :: (host ++ '/' :: path)) := by
    simp [getScheme]
  have hsplit := takeWhile_host host path (fun c hc => plain_ne_slash c (hplain c hc))
  unfold parseReference
  rw [h, hs]
  simp only [List.cons_append, hsplit.1, hsplit.2]
  rfl

theorem getScheme_letters (seen letters rest : List Char)
    (hall : ∀ c, c ∈ letters → c.isAlpha = true) (hne : seen ≠ [] ∨ letters ≠ []) :
    getScheme seen (letters ++ ':' :: rest) = Except.ok (seen.reverse ++ letters, rest) := by
  induction letters generalizing seen with
  | nil =>
    have hs : seen ≠ [] := by
      rcases hne with h | h
      · exact h
      · exact absurd rfl h
    have hemp : seen.isEmpty = false := by
      cases seen with
      | nil => exact absurd rfl hs
      | cons a l => rfl
    simp [getScheme, hemp]
  | cons c l ih =>
    have hc : c.isAlpha = true := hall c (List.mem_cons_self _ _)
    have hrest := ih (c :: seen) (fun d hd => hall d (List.mem_cons_of_mem _ hd))
      (Or.inl (List.cons_ne_nil _ _))
    simp [getScheme, hc, hrest]

theorem parseReference_absolute (rd : String) (scheme host path : List Char)
    (h : rd.data = scheme ++ ':' :: '/' :: '/' :: (host ++ '/' :: path))
    (hscheme : scheme ≠ []) (hletters : ∀ c, c ∈ scheme → c.isAlpha = true)
    (hplain : ∀ c, c ∈ host → c.isAlphanum = true ∨ c = '.' ∨ c = '-') :
    parseReference rd =
      Except.ok { Scheme := String.mk (scheme.map Char.toLower), Host := String.mk host,
                  Path := String.mk ('/' :: path), RawQuery := "", Fragment := "" } := by
  have hs := getScheme_letters [] scheme ('/' :: '/' :: (host ++ '/' :: path)) hletters
    (Or.inr hscheme)
  have hsplit := takeWhile_host host path (fun c hc => plain_ne_slash c (hplain c hc))
  unfold parseReference
  rw [h, hs]
  simp only [List.reverse_nil, List.nil_append, List.cons_append, hsplit.1, hsplit.2]

theorem mk_ne_empty (l : List Char) (h : l ≠ []) : String.mk l ≠ "" := by
  intro e
  apply h
  have h2 := congrArg String.data e
  simpa using h2

theorem resolveReference_path_only (base ref : URL) (h1 : ref.Scheme = "") (h2 : ref.Host = "") :
    (resolveReference base ref).Scheme = base.Scheme ∧
    (resolveReference base ref).Host = base.Host := by
  unfold resolveReference
  rw [if_neg (by simp [h1, h2])]
  split <;> exact ⟨rfl, rfl⟩

theorem resolveReference_own_host (base ref : URL) (h : ref.Host ≠ "") :
    (resolveReference base ref).Host = ref.Host ∧
    (resolveReference base ref).Scheme = (if ref.Scheme = "" then base.Scheme else ref.Scheme) := by
  unfold resolveReference
  rw [if_pos (Or.inr h)]
  exact ⟨rfl, rfl⟩

theorem startAuthFlow_flow_of_parse (net : NetURL) (s : AuthService) (r : Request)
    (hparse : net.parse = rfcNetURL.parse) (ref : URL)
    (hrd : net.queryGet r.URL "rd" ≠ "")
    (href : parseReference (net.queryGet r.URL "rd") = Except.ok ref) :
    (s.startAuthFlow net (State.init r)).flow =
      [{ r with URL := resolveReference s.RootURL ref }] := by
  have hp : net.parse s.RootURL (net.queryGet r.URL "rd") =
      Except.ok (resolveReference s.RootURL ref) := by
    rw [hparse]
    exact rfc_parse_ok s.RootURL _ ref href
  rcases startAuthFlow_cases net s r with ⟨h0, _⟩ | ⟨_, err, hp2, _⟩ | ⟨_, u, hp2, heq⟩
  · exact absurd h0 hrd
  · rw [hp] at hp2
    cases hp2
  · rw [hp] at hp2
    cases hp2
    rw [heq]

theorem data_ne_empty (rd : String) (c : Char) (rest : List Char) (h : rd.data = c :: rest) :
    rd ≠ "" := by
  intro e
  rw [e] at h
  cases h

/-- C20, amended: with reference resolution as Go documents it for `Parse`
(`rfcNetURL`), `startAuthFlow` hands the resolved location to
`HandleStartAuthFlow` without a check of its own.  For every `rd` that begins
with one `/` only (a path), every location handed on has the scheme and the host
of `RootURL`.  An `rd` of the form `//host/path` is handed on with the host of
`rd` and the scheme of `RootURL`, and an `rd` of the form `scheme://host/path`
with the scheme and the host of `rd`: such an `rd` makes the return target point
to a host other than that of `RootURL` whenever `host` is another one.  (`host`
is made of letters, digits, dots and dashes, `scheme` of letters, `path` of
letters, digits, dots, dashes, underscores and slashes.) -/
theorem startAuthFlow_target (net : NetURL) (s : AuthService) (r : Request)
    (hparse : net.parse = rfcNetURL.parse) :
    (∀ rest, (net.queryGet r.URL "rd").data = '/' :: rest → rest.head? ≠ some '/' →
      ∀ q, q ∈ (s.startAuthFlow net (State.init r)).flow →
        q.URL.Scheme = s.RootURL.Scheme ∧ q.URL.Host = s.RootURL.Host) ∧
    (∀ host path, (net.queryGet r.URL "rd").data = '/' :: '/' :: (host ++ '/' :: path) →
      host ≠ [] → (∀ c, c ∈ host → c.isAlphanum = true ∨ c = '.' ∨ c = '-') →
      (∀ c, c ∈ path → c.isAlphanum = true ∨ c = '.' ∨ c = '-' ∨ c = '_' ∨ c = '/') →
      ∃ q, (s.startAuthFlow net (State.init r)).flow = [q] ∧
        q.URL.Host = String.mk host ∧ q.URL.Scheme = s.RootURL.Scheme) ∧
    (∀ scheme host path,
      (net.queryGet r.URL "rd").data = scheme ++ ':' :: '/' :: '/' :: (host ++ '/' :: path) →
      scheme ≠ [] → (∀ c, c ∈ scheme → c.isAlpha = true) →
      host ≠ [] → (∀ c, c ∈ host → c.isAlphanum = true ∨ c = '.' ∨ c = '-') →
      (∀ c, c ∈ path → c.isAlphanum = true ∨ c = '.' ∨ c = '-' ∨ c = '_' ∨ c = '/') →
      ∃ q, (s.startAuthFlow net (State.init r)).flow = [q] ∧
        q.URL.Host = String.mk host ∧
        q.URL.Scheme = String.mk (scheme.map Char.toLower)) := by
  refine ⟨?_, ?_, ?_⟩
  · intro rest hdata hhead q hq
    obtain ⟨ref, href, h1, h2⟩ := parseReference_path_only _ rest hdata hhead
    rw [startAuthFlow_flow_of_parse net s r hparse ref (data_ne_empty _ _ _ hdata) href] at hq
    rw [List.mem_singleton.mp hq]
    exact resolveReference_path_only s.RootURL ref h1 h2
  · intro host path hdata hhost hplain _
    have href := parseReference_authority _ host path hdata hplain
    refine ⟨_, startAuthFlow_flow_of_parse net s r hparse _ (data_ne_empty _ _ _ hdata) href, ?_⟩
    have hres := resolveReference_own_host s.RootURL
      { Scheme := "", Host := String.mk host, Path := String.mk ('/' :: path),
        RawQuery := "", Fragment := "" } (mk_ne_empty host hhost)
    exact ⟨hres.1, hres.2⟩
  · intro scheme host path hdata hscheme hletters hhost hplain _
    have href := parseReference_absolute _ scheme host path hdata hscheme hletters hplain
    have hne : net.queryGet r.URL "rd" ≠ "" := by
      cases scheme with
      | nil => exact absurd rfl hscheme
      | cons c l => exact data_ne_empty _ c _ hdata
    refine ⟨_, startAuthFlow_flow_of_parse net s r hparse _ hne href, ?_⟩
    have hres := resolveReference_own_host s.RootURL
      { Scheme := String.mk (scheme.map Char.toLower), Host := String.mk host,
        Path := String.mk ('/' :: path), RawQuery := "", Fragment := "" }
      (mk_ne_empty host hhost)
    refine ⟨hres.1, ?_⟩
    rw [hres.2]
    have hsn : String.mk (scheme.map Char.toLower) ≠ "" :=
      mk_ne_empty _ (by simpa using hscheme)
    simp [hsn]

/-- Witness of C20 amended: for `rd=/deep/link` every target is on the root
`http://example.com`; for `rd=//evil.example/x` the target has the host
`evil.example`. -/
theorem startAuthFlow_target_witness :
    (∀ q, q ∈ ((fakeAuthService unknownUser GoSlice.nil).startAuthFlow rfcNetURL
        (State.init (fakeRequest "/saml/signin" "/deep/link"))).flow →
      q.URL.Scheme = "http" ∧ q.URL.Host = "example.com") ∧
    (∃ q, ((fakeAuthService unknownUser GoSlice.nil).startAuthFlow rfcNetURL
        (State.init (fakeRequest "/saml/signin" "//evil.example/x"))).flow = [q] ∧
      q.URL.Host = "evil.example" ∧ q.URL.Scheme = "http") :=
  ⟨(startAuthFlow_target rfcNetURL (fakeAuthService unknownUser GoSlice.nil)
      (fakeRequest "/saml/signin" "/deep/link") rfl).1
      "deep/link".data rfl (by decide),
   (startAuthFlow_target rfcNetURL (fakeAuthService unknownUser GoSlice.nil)
      (fakeRequest "/saml/signin" "//evil.example/x") rfl).2.1
      "evil.example".data "x".data rfl (by decide) (by decide) (by decide)⟩

/-! ## Monotonicity, and the guard on empty attributes -/

theorem index_of_len_ne_zero (A : Attributes) (h : A.len ≠ 0) :
    ∃ name values, A.index name = some values := by
  cases A with
  | nil => exact absurd rfl h
  | mk entries =>
    cases entries with
    | nil => exact absurd rfl h
    | cons e rest =>
      obtain ⟨name, values⟩ := e
      exact ⟨name, values, by simp [GoMap.index, List.lookup]⟩

theorem len_ne_zero_of_index (A : Attributes) (name : String) (values : GoSlice String)
    (h : A.index name = some values) : A.len ≠ 0 := by
  cases A with
  | nil => cases h
  | mk entries =>
    cases entries with
    | nil => cases h
    | cons e rest => simp [GoMap.len]

theorem index_of_len_eq_zero (A : Attributes) (h : A.len = 0) (name : String) :
    A.index name = none := by
  cases hidx : A.index name with
  | none => rfl
  | some values => exact absurd h (len_ne_zero_of_index A name values hidx)

theorem aclCheckAND_of_len_eq_zero (A : Attributes) (h : A.len = 0) (r : requirement) :
    aclCheckAND A r = true ↔ r.len = 0 := by
  rw [aclCheckAND_iff, GoMap.map_len_eq_length, List.length_eq_zero]
  constructor
  · intro hall
    cases hr : r.range with
    | nil => rfl
    | cons e rest =>
      obtain ⟨name, want⟩ := e
      obtain ⟨values, hv, _⟩ := hall name want (by rw [hr]; exact List.mem_cons_self _ _)
      rw [index_of_len_eq_zero A h name] at hv
      cases hv
  · intro hr name want hmem
    rw [hr] at hmem
    cases hmem

theorem aclCheckOR_of_len_eq_zero (A : Attributes) (h : A.len = 0) (P : GoSlice requirement) :
    aclCheckOR A P = true ↔ ∃ r, r ∈ P.range ∧ r.len = 0 := by
  rw [aclCheckOR_iff]
  constructor
  · rintro ⟨r, hr, hok⟩
    exact ⟨r, hr, (aclCheckAND_of_len_eq_zero A h r).mp hok⟩
  · rintro ⟨r, hr, hlen⟩
    exact ⟨r, hr, (aclCheckAND_of_len_eq_zero A h r).mpr hlen⟩

/-- C21: gaining attributes never turns an allow into a deny.  For every policy
and attribute sets `A` and `A2` such that every name of `A` is a name of `A2`
and every value of `A[name]` occurs in `A2[name]`, if `checkACL A` is true then
`checkACL A2` is true. -/
theorem checkACL_monotone (s : AuthService) (A A2 : Attributes)
    (hsub : ∀ name values, A.index name = some values →
      ∃ values2, A2.index name = some values2 ∧ ∀ v, v ∈ values.range → v ∈ values2.range)
    (hacl : s.checkACL A = true) :
    s.checkACL A2 = true := by
  rw [checkACL_eq] at hacl ⊢
  by_cases hP : s.RequiredAttributes.len = 0
  · rw [if_pos hP]
  · rw [if_neg hP] at hacl ⊢
    by_cases hA : A.len = 0
    · rw [if_pos hA] at hacl
      cases hacl
    · rw [if_neg hA] at hacl
      obtain ⟨name, values, hidx⟩ := index_of_len_ne_zero A hA
      obtain ⟨values2, hidx2, _⟩ := hsub name values hidx
      rw [if_neg (len_ne_zero_of_index A2 name values2 hidx2)]
      rw [aclCheckOR_iff] at hacl ⊢
      obtain ⟨r, hr, hok⟩ := hacl
      refine ⟨r, hr, ?_⟩
      rw [aclCheckAND_iff] at hok ⊢
      intro n want hmem
      obtain ⟨vs, hvs, hin⟩ := hok n want hmem
      obtain ⟨vs2, hvs2, hall⟩ := hsub n vs hvs
      exact ⟨vs2, hvs2, hall want hin⟩

/-- Witness of C21: the attributes of `TestCheckACL/MatchAttrShouldPass`, and
the same with one more value and one more name. -/
theorem checkACL_monotone_witness :
    (fakeAuthService validUser (GoSlice.mk [GoMap.mk [("name", "Alice")]])).checkACL
      (GoMap.mk [("name", GoSlice.mk ["Bob", "Alice"]), ("email", GoSlice.mk ["alice@example.com"]),
                 ("group", GoSlice.mk ["users"])]) = true :=
  checkACL_monotone (fakeAuthService validUser (GoSlice.mk [GoMap.mk [("name", "Alice")]]))
    (GoMap.mk [("name", GoSlice.mk ["Alice"]), ("email", GoSlice.mk ["alice@example.com"])])
    (GoMap.mk [("name", GoSlice.mk ["Bob", "Alice"]), ("email", GoSlice.mk ["alice@example.com"]),
               ("group", GoSlice.mk ["users"])])
    (by
      intro name values h
      by_cases h1 : name = "name"
      · subst h1
        have hv : values = GoSlice.mk ["Alice"] := by
          simpa [GoMap.index, List.lookup] using h.symm
        subst hv
        exact ⟨GoSlice.mk ["Bob", "Alice"], by decide, by decide⟩
      · by_cases h2 : name = "email"
        · subst h2
          have hv : values = GoSlice.mk ["alice@example.com"] := by
            simpa [GoMap.index, List.lookup] using h.symm
          subst hv
          exact ⟨GoSlice.mk ["alice@example.com"], by decide, by decide⟩
        · exfalso
          have hb1 : (name == "name") = false := by simpa using h1
          have hb2 : (name == "email") = false := by simpa using h2
          simp [GoMap.index, List.lookup, hb1, hb2] at h)
    (by decide)

/-- C22: when no requirement of the policy has zero entries, `checkACL A` equals
"the policy is empty, or `aclCheckOR A P`", for every attribute set `A`.  For an
arbitrary policy the two differ if and only if `A` has no entries and the policy
is non-empty and contains a zero-entry requirement; there `checkACL A` is false
and `aclCheckOR A P` is true. -/
theorem checkACL_guard (s : AuthService) (A : Attributes) :
    ((∀ r, r ∈ s.RequiredAttributes.range → r.len ≠ 0) →
      s.checkACL A =
        (decide (s.RequiredAttributes.len = 0) || aclCheckOR A s.RequiredAttributes)) ∧
    (s.checkACL A ≠
        (decide (s.RequiredAttributes.len = 0) || aclCheckOR A s.RequiredAttributes) ↔
      A.len = 0 ∧ s.RequiredAttributes.len ≠ 0 ∧
        ∃ r, r ∈ s.RequiredAttributes.range ∧ r.len = 0) ∧
    (A.len = 0 → s.RequiredAttributes.len ≠ 0 →
      (∃ r, r ∈ s.RequiredAttributes.range ∧ r.len = 0) →
      s.checkACL A = false ∧ aclCheckOR A s.RequiredAttributes = true) := by
  have hdiff : s.checkACL A ≠
        (decide (s.RequiredAttributes.len = 0) || aclCheckOR A s.RequiredAttributes) ↔
      A.len = 0 ∧ s.RequiredAttributes.len ≠ 0 ∧
        ∃ r, r ∈ s.RequiredAttributes.range ∧ r.len = 0 := by
    rw [checkACL_eq]
    by_cases hP : s.RequiredAttributes.len = 0
    · simp [hP]
    · by_cases hA : A.len = 0
      · rw [if_neg hP, if_pos hA, ← aclCheckOR_of_len_eq_zero A hA s.RequiredAttributes]
        cases hor : aclCheckOR A s.RequiredAttributes <;> simp [hP, hA]
      · simp [hP, hA]
  refine ⟨?_, hdiff, ?_⟩
  · intro hnz
    by_contra hne
    obtain ⟨_, _, r, hr, hlen⟩ := hdiff.mp hne
    exact hnz r hr hlen
  · intro hA hP hex
    constructor
    · rw [checkACL_eq, if_neg hP, if_pos hA]
    · exact (aclCheckOR_of_len_eq_zero A hA s.RequiredAttributes).mpr hex

/-- Witness of C22: on `TestCheckACL/RequireAttrButNoAttrShouldFail` the guard
agrees with `aclCheckOR`; on a policy that holds a zero-entry requirement and
the nil attribute map, `checkACL` is false and `aclCheckOR` is true. -/
theorem checkACL_guard_witness :
    (fakeAuthService validUser (GoSlice.mk [GoMap.mk [("name", "Alice")]])).checkACL
        (GoMap.mk []) =
      (decide ((fakeAuthService validUser
          (GoSlice.mk [GoMap.mk [("name", "Alice")]])).RequiredAttributes.len = 0) ||
        aclCheckOR (GoMap.mk [])
          (fakeAuthService validUser
            (GoSlice.mk [GoMap.mk [("name", "Alice")]])).RequiredAttributes) ∧
    ((fakeAuthService validUser
        (GoSlice.mk [GoMap.mk [("name", "Alice")], GoMap.mk []])).checkACL GoMap.nil = false ∧
      aclCheckOR GoMap.nil
        (fakeAuthService validUser
          (GoSlice.mk [GoMap.mk [("name", "Alice")], GoMap.mk []])).RequiredAttributes = true) :=
  ⟨(checkACL_guard _ _).1 (by decide),
   (checkACL_guard _ _).2.2 rfl (by decide) ⟨GoMap.mk [], by decide, rfl⟩⟩

end Authorizer
